import Mathlib

/-
Verification of the cognitive-membrane pattern engine.

Shallow embedding of `src/core/typing_monitor.py`, `src/core/pattern_recognition.py`
and `src/core/pattern_validation.py`.  Python floats are modelled as exact
rationals (ℚ), `datetime` values as rational seconds on an absolute axis, and
`datetime.now()` as an explicit `now : ℚ` argument threaded into every
operation that reads the clock.  Python dicts with string keys are modelled as
association lists in insertion order.  Dataclass equality (`==` / `!=`) is
structural, which the derived `DecidableEq` mirrors.
-/

/-- `statistics.mean`: arithmetic mean of a list (Python raises on `[]`;
all call sites below guard for nonemptiness). -/
def mean (xs : List ℚ) : ℚ := xs.sum / xs.length

/-- `statistics.variance`: sample variance, sum of squared deviations divided
by `n - 1` (Python raises for fewer than two data points; all call sites
below guard with a length check). -/
def svariance (xs : List ℚ) : ℚ :=
  (xs.map (fun x => (x - mean xs) ^ 2)).sum / ((xs.length : ℚ) - 1)

/-- Python `max` over a list (0 on `[]`, which Python would reject;
call sites guard for nonemptiness). -/
def pyMax : List ℚ → ℚ
  | [] => 0
  | x :: xs => xs.foldl max x

/-- Consecutive pairs of a list: the pairs `(l[i-1], l[i])` visited by
`for i in range(1, len(l))`. -/
def consecPairs : List α → List (α × α)
  | a :: b :: rest => (a, b) :: consecPairs (b :: rest)
  | _ => []

/-- `KeyStroke` dataclass from `typing_monitor.py`. -/
structure KeyStroke where
  key : String
  timestamp : ℚ
  duration : ℚ
deriving DecidableEq, Inhabited

/-- `TypingBurst` dataclass from `typing_monitor.py`. -/
structure TypingBurst where
  keystrokes : List KeyStroke
  start_time : ℚ
  end_time : ℚ
  chars_per_minute : ℚ
  average_keystroke_duration : ℚ
deriving DecidableEq, Inhabited

/-- `TypingPatternAnalyzer.analyze_burst`: returns a burst for a keystroke
list with at least two keystrokes and positive elapsed time, `none` otherwise. -/
def analyze_burst (keystrokes : List KeyStroke) : Option TypingBurst :=
  if keystrokes.length < 2 then none
  else if (keystrokes.getLastD default).timestamp
            - (keystrokes.headD default).timestamp ≤ 0 then none
  else
    some { keystrokes := keystrokes
           start_time := (keystrokes.headD default).timestamp
           end_time := (keystrokes.getLastD default).timestamp
           chars_per_minute := ((keystrokes.length : ℚ)
             / ((keystrokes.getLastD default).timestamp
                 - (keystrokes.headD default).timestamp)) * 60
           average_keystroke_duration := mean (keystrokes.map (·.duration)) }

/-- Mutable state of `EnhancedTypingMonitor` relevant to keystroke processing
(`pause_threshold` lives on its `TypingPatternAnalyzer`, default 2.0 s). -/
structure MonitorState where
  pause_threshold : ℚ
  current_burst : List KeyStroke
  bursts : List TypingBurst
  pause_starts : List ℚ
  pause_ends : List ℚ
deriving DecidableEq

/-- A fresh `EnhancedTypingMonitor` (empty burst buffers, threshold 2.0 s). -/
def freshMonitor : MonitorState :=
  { pause_threshold := 2, current_burst := [], bursts := [],
    pause_starts := [], pause_ends := [] }

/-- `EnhancedTypingMonitor._process_keystroke`: starts a burst on the first
keystroke; on a gap of at least `pause_threshold` closes the current burst
through `analyze_burst` (dropping it when `analyze_burst` yields `none`) and
starts a new burst with the incoming keystroke; otherwise extends the burst. -/
def process_keystroke (k : KeyStroke) (m : MonitorState) : MonitorState :=
  match m.current_burst with
  | [] => { m with current_burst := [k] }
  | _ :: _ =>
    if m.pause_threshold
        ≤ k.timestamp - (m.current_burst.getLastD default).timestamp then
      match analyze_burst m.current_burst with
      | some b =>
          { m with bursts := m.bursts ++ [b]
                   pause_starts := m.pause_starts
                     ++ [(m.current_burst.getLastD default).timestamp]
                   pause_ends := m.pause_ends ++ [k.timestamp]
                   current_burst := [k] }
      | none => { m with current_burst := [k] }
    else { m with current_burst := m.current_burst ++ [k] }

/-- Feed a keystroke sequence through `_process_keystroke` one by one. -/
def processAll (ks : List KeyStroke) (m : MonitorState) : MonitorState :=
  ks.foldl (fun s k => process_keystroke k s) m

/-- `TypingPattern` dataclass (as used by `pattern_recognition.py`). -/
structure TypingPattern where
  avg_speed : ℚ
  burst_duration : ℚ
  pause_duration : ℚ
  timestamp : ℚ
deriving DecidableEq, Inhabited

/-- `ActivityMetrics` dataclass from `activity_monitor.py`
(`tool_switches` is a Python `int`). -/
structure ActivityMetrics where
  typing_speed : ℚ
  focus_duration : ℚ
  tool_switches : ℤ
  timestamp : ℚ
deriving DecidableEq, Inhabited

/-- `ActivityPattern` dataclass from `pattern_recognition.py`; the
`metrics : Dict[str, float]` is an association list in insertion order. -/
structure ActivityPattern where
  pattern_type : String
  start_time : ℚ
  end_time : ℚ
  intensity : ℚ
  confidence : ℚ
  metrics : List (String × ℚ)
deriving DecidableEq, Inhabited

/-- `ContextChange` dataclass from `pattern_recognition.py`. -/
structure ContextChange where
  timestamp : ℚ
  from_context : String
  to_context : String
  change_duration : ℚ
  confidence : ℚ
deriving DecidableEq, Inhabited

/-- Mutable state of a `PatternRecognizer`. -/
structure RecognizerState where
  window_size : ℚ
  activity_patterns : List ActivityPattern
  context_changes : List ContextChange
  typing_history : List TypingPattern
  activity_history : List ActivityMetrics
deriving DecidableEq

/-- The instance produced by `PatternRecognizer.__init__(window_size)`. -/
def freshRecognizer (window_size : ℚ) : RecognizerState :=
  { window_size := window_size, activity_patterns := [], context_changes := [],
    typing_history := [], activity_history := [] }

/-- `PatternRecognizer.__init__` viewed as a fallible constructor.  The Python
body only assigns fields and contains no `raise` and no validation of
`window_size`, so it always succeeds. -/
def mkPatternRecognizer (window_size : ℚ) : Except String RecognizerState :=
  .ok (freshRecognizer window_size)

/-- `PatternRecognizer._cleanup_old_data`: drops every item whose timestamp
(`end_time` for activity patterns) is not after the cutoff
`now - window_size`. -/
def cleanup_old_data (now : ℚ) (s : RecognizerState) : RecognizerState :=
  { s with
    typing_history := s.typing_history.filter
      (fun p => decide (now - s.window_size < p.timestamp))
    activity_history := s.activity_history.filter
      (fun m => decide (now - s.window_size < m.timestamp))
    activity_patterns := s.activity_patterns.filter
      (fun p => decide (now - s.window_size < p.end_time))
    context_changes := s.context_changes.filter
      (fun c => decide (now - s.window_size < c.timestamp)) }

/-- The sampled speeds `[p.avg_speed for p in self._typing_history]`. -/
def typingSpeeds (s : RecognizerState) : List ℚ :=
  s.typing_history.map (·.avg_speed)

/-- The `intensity` computed in `_analyze_typing_patterns`:
`avg_speed / max_speed` when `max_speed > 0`, else 0. -/
def typingIntensity (s : RecognizerState) : ℚ :=
  if 0 < pyMax (typingSpeeds s)
  then mean (typingSpeeds s) / pyMax (typingSpeeds s) else 0

/-- The `consistency` computed in `_analyze_typing_patterns`:
`1 / (1 + variance)` for at least two samples, else 0.5. -/
def typingConsistency (s : RecognizerState) : ℚ :=
  if 1 < (typingSpeeds s).length
  then 1 / (1 + svariance (typingSpeeds s)) else 1 / 2

/-- The single summary `typing`-type pattern built in
`_analyze_typing_patterns` over the retained typing history. -/
def typingSummary (s : RecognizerState) : ActivityPattern :=
  { pattern_type := "typing"
    start_time := (s.typing_history.headD default).timestamp
    end_time := (s.typing_history.getLastD default).timestamp
    intensity := typingIntensity s
    confidence := typingConsistency s
    metrics := [("avg_speed", mean (typingSpeeds s)),
                ("consistency", typingConsistency s),
                ("burst_count", (s.typing_history.length : ℚ))] }

/-- `PatternRecognizer._analyze_typing_patterns`: when the typing history is
nonempty, removes every prior `typing`-type pattern and appends the summary
pattern over the whole retained history. -/
def analyze_typing_patterns (s : RecognizerState) : RecognizerState :=
  if s.typing_history.isEmpty then s
  else
    { s with activity_patterns :=
        s.activity_patterns.filter (fun p => !(p.pattern_type == "typing"))
          ++ [typingSummary s] }

/-- The `ContextChange` built in `_analyze_activity_metrics` for a consecutive
pair with decreasing `focus_duration`, `none` when no change is detected. -/
def detectContextChange (prev curr : ActivityMetrics) : Option ContextChange :=
  if curr.focus_duration < prev.focus_duration then
    some { timestamp := curr.timestamp, from_context := "focused",
           to_context := "switching", change_duration := curr.focus_duration,
           confidence := min 1 ((curr.tool_switches : ℚ) / 5) }
  else none

/-- The `tool`-type `ActivityPattern` built in `_analyze_activity_metrics`
for a consecutive pair with increasing `tool_switches`. -/
def detectToolPattern (prev curr : ActivityMetrics) : Option ActivityPattern :=
  if prev.tool_switches < curr.tool_switches then
    some { pattern_type := "tool", start_time := prev.timestamp,
           end_time := curr.timestamp,
           intensity := min 1 ((curr.tool_switches : ℚ) / 10),
           confidence := 4 / 5,
           metrics := [("switch_count", (curr.tool_switches : ℚ)),
                       ("typing_speed", curr.typing_speed)] }
  else none

/-- The context changes appended by one run of `_analyze_activity_metrics`
over a given activity history: one per consecutive pair with decreasing
`focus_duration`, in scan order. -/
def qualifyingChanges (ms : List ActivityMetrics) : List ContextChange :=
  (consecPairs ms).filterMap (fun q => detectContextChange q.1 q.2)

/-- The tool patterns appended by one run of `_analyze_activity_metrics`. -/
def qualifyingToolPatterns (ms : List ActivityMetrics) : List ActivityPattern :=
  (consecPairs ms).filterMap (fun q => detectToolPattern q.1 q.2)

/-- `PatternRecognizer._analyze_activity_metrics`: scans every consecutive
pair of the retained activity history and appends a `ContextChange` per focus
drop and a `tool` pattern per tool-switch increase. -/
def analyze_activity_metrics (s : RecognizerState) : RecognizerState :=
  if s.activity_history.length < 2 then s
  else
    { s with
      context_changes := s.context_changes ++ qualifyingChanges s.activity_history
      activity_patterns := s.activity_patterns ++ qualifyingToolPatterns s.activity_history }

/-- `PatternRecognizer.add_typing_pattern`. -/
def add_typing_pattern (now : ℚ) (p : TypingPattern) (s : RecognizerState) :
    RecognizerState :=
  analyze_typing_patterns
    (cleanup_old_data now { s with typing_history := s.typing_history ++ [p] })

/-- `PatternRecognizer.add_activity_metrics`. -/
def add_activity_metrics (now : ℚ) (m : ActivityMetrics) (s : RecognizerState) :
    RecognizerState :=
  analyze_activity_metrics
    (cleanup_old_data now { s with activity_history := s.activity_history ++ [m] })

/-- `PatternRecognizer.get_recent_patterns`: pure read (the Python body is a
single list comprehension over `self.activity_patterns` and assigns nothing). -/
def get_recent_patterns (now window : ℚ) (s : RecognizerState) :
    List ActivityPattern :=
  s.activity_patterns.filter (fun p => decide (now - window < p.end_time))

/-- `PatternRecognizer.get_recent_context_changes`: pure read. -/
def get_recent_context_changes (now window : ℚ) (s : RecognizerState) :
    List ContextChange :=
  s.context_changes.filter (fun c => decide (now - window < c.timestamp))

/-- One ingestion event of a `PatternRecognizer`, tagged with the clock value
at which it happens. -/
inductive RecEvent where
  | typing (now : ℚ) (p : TypingPattern)
  | activity (now : ℚ) (m : ActivityMetrics)
deriving DecidableEq

/-- Apply one ingestion event. -/
def applyEvent (s : RecognizerState) : RecEvent → RecognizerState
  | .typing now p => add_typing_pattern now p s
  | .activity now m => add_activity_metrics now m s

/-- Run a sequence of ingestion events. -/
def runEvents (s : RecognizerState) (es : List RecEvent) : RecognizerState :=
  es.foldl applyEvent s

/-- Ingest a list of activity metrics one by one at a fixed clock value. -/
def ingestActivityAll (now : ℚ) (ms : List ActivityMetrics)
    (s : RecognizerState) : RecognizerState :=
  ms.foldl (fun t m => add_activity_metrics now m t) s

/-- `ValidationResult` dataclass from `pattern_validation.py`. -/
structure ValidationResult where
  is_valid : Bool
  confidence : ℚ
  metrics : List (String × ℚ)
  anomalies : List String
deriving DecidableEq

/-- Mutable state of a `PatternValidator`. -/
structure ValidatorState where
  min_confidence : ℚ
  min_duration : ℚ
  max_variance : ℚ
  pattern_history : List ActivityPattern
  context_history : List ContextChange
deriving DecidableEq

/-- The instance produced by `PatternValidator.__init__`. -/
def freshValidator (min_confidence min_duration max_variance : ℚ) :
    ValidatorState :=
  { min_confidence := min_confidence, min_duration := min_duration,
    max_variance := max_variance, pattern_history := [], context_history := [] }

/-- `PatternValidator.__init__` viewed as a fallible constructor.  The Python
body only assigns fields and contains no `raise` and no validation of the
thresholds, so it always succeeds. -/
def mkPatternValidator (min_confidence min_duration max_variance : ℚ) :
    Except String ValidatorState :=
  .ok (freshValidator min_confidence min_duration max_variance)

/-- `PatternValidator._cleanup_old_patterns`: 30-minute (1800 s) history
cutoff applied to both history stores. -/
def cleanup_old_patterns (now : ℚ) (v : ValidatorState) : ValidatorState :=
  { v with
    pattern_history := v.pattern_history.filter
      (fun p => decide (now - 1800 < p.end_time))
    context_history := v.context_history.filter
      (fun c => decide (now - 1800 < c.timestamp)) }

/-- The record-then-prune step at the top of `validate_activity_pattern`. -/
def record_activity_pattern (now : ℚ) (pattern : ActivityPattern)
    (v : ValidatorState) : ValidatorState :=
  cleanup_old_patterns now
    { v with pattern_history := v.pattern_history ++ [pattern] }

/-- The record-then-prune step at the top of `validate_context_change`. -/
def record_context_change (now : ℚ) (change : ContextChange)
    (v : ValidatorState) : ValidatorState :=
  cleanup_old_patterns now
    { v with context_history := v.context_history ++ [change] }

/-- `PatternValidator._find_similar_patterns`: history entries of the same
type whose intensity is within 0.2, excluding entries structurally equal to
the candidate (Python dataclass `!=` compares field values). -/
def find_similar_patterns (v : ValidatorState) (pattern : ActivityPattern) :
    List ActivityPattern :=
  v.pattern_history.filter (fun p =>
    p.pattern_type == pattern.pattern_type
      && decide (|p.intensity - pattern.intensity| < 1 / 5)
      && decide (p ≠ pattern))

/-- The anomaly labels collected by `_validate_new_pattern`. -/
def newPatternAnomalies (pattern : ActivityPattern) : List String :=
  (match pattern.metrics.lookup "consistency" with
   | some c => if c < 3 / 10 then ["Low internal consistency"] else []
   | none => []) ++
  (match pattern.metrics.lookup "burst_count" with
   | some b => if b < 2 then ["Insufficient data points"] else []
   | none => [])

/-- The final confidence computed by `_validate_new_pattern`. -/
def newPatternConfidence (pattern : ActivityPattern) : ℚ :=
  max 0 (pattern.confidence - ((newPatternAnomalies pattern).length : ℚ) * (1 / 5))

/-- `PatternValidator._validate_new_pattern`. -/
def validate_new_pattern (v : ValidatorState) (pattern : ActivityPattern) :
    ValidationResult :=
  { is_valid := decide (v.min_confidence ≤ newPatternConfidence pattern)
    confidence := newPatternConfidence pattern
    metrics := pattern.metrics
    anomalies := newPatternAnomalies pattern }

/-- The `historical_values` list of `_validate_against_history` for one
metric name: the values of that metric over the similar patterns carrying it. -/
def histVals (similar : List ActivityPattern) (name : String) : List ℚ :=
  similar.filterMap (fun p => p.metrics.lookup name)

/-- The `var` of `_validate_against_history` for one metric name: sample
variance of the historical values when there are at least two, else 0. -/
def histVarOf (similar : List ActivityPattern) (name : String) : ℚ :=
  if 1 < (histVals similar name).length then svariance (histVals similar name)
  else 0

/-- One loop iteration of `_validate_against_history`: the anomaly labels and
the `avg_`/`var_` entries contributed by one candidate metric (nothing when
no similar pattern carries the metric, mirroring `if historical_values:`). -/
def histEntry (v : ValidatorState) (similar : List ActivityPattern)
    (e : String × ℚ) : List String × List (String × ℚ) :=
  if (histVals similar e.1).isEmpty then ([], [])
  else
    ((if 0 < histVarOf similar e.1
          ∧ v.max_variance < |e.2 - mean (histVals similar e.1)| / histVarOf similar e.1
      then ["Unusual " ++ e.1 ++ " value"] else []),
     [("avg_" ++ e.1, mean (histVals similar e.1)),
      ("var_" ++ e.1, histVarOf similar e.1)])

/-- The anomaly labels collected by `_validate_against_history`. -/
def historyAnomalies (v : ValidatorState) (pattern : ActivityPattern)
    (similar : List ActivityPattern) : List String :=
  (pattern.metrics.map (fun e => (histEntry v similar e).1)).flatten

/-- The `avg_`/`var_` metric entries collected by
`_validate_against_history`. -/
def historyExtraMetrics (v : ValidatorState) (pattern : ActivityPattern)
    (similar : List ActivityPattern) : List (String × ℚ) :=
  (pattern.metrics.map (fun e => (histEntry v similar e).2)).flatten

/-- The final confidence computed by `_validate_against_history`:
`clamp01(base + 0.1·|similar| − 0.2·|anomalies|)`. -/
def historyConfidence (v : ValidatorState) (pattern : ActivityPattern)
    (similar : List ActivityPattern) : ℚ :=
  min 1 (max 0 (pattern.confidence + (similar.length : ℚ) * (1 / 10)
                  - ((historyAnomalies v pattern similar).length : ℚ) * (1 / 5)))

/-- `PatternValidator._validate_against_history`. -/
def validate_against_history (v : ValidatorState) (pattern : ActivityPattern)
    (similar : List ActivityPattern) : ValidationResult :=
  { is_valid := decide (v.min_confidence ≤ historyConfidence v pattern similar)
                  && (historyAnomalies v pattern similar).isEmpty
    confidence := historyConfidence v pattern similar
    metrics := pattern.metrics ++ historyExtraMetrics v pattern similar
    anomalies := historyAnomalies v pattern similar }

/-- `PatternValidator.validate_activity_pattern`: records the candidate,
prunes history, then gates on duration and confidence before the historical
comparison.  Returns the updated validator state together with the result. -/
def validate_activity_pattern (now : ℚ) (pattern : ActivityPattern)
    (v : ValidatorState) : ValidatorState × ValidationResult :=
  if pattern.end_time - pattern.start_time
      < (record_activity_pattern now pattern v).min_duration then
    (record_activity_pattern now pattern v,
     { is_valid := false, confidence := 0,
       metrics := [("duration", pattern.end_time - pattern.start_time)],
       anomalies := ["Pattern duration too short"] })
  else if pattern.confidence
      < (record_activity_pattern now pattern v).min_confidence then
    (record_activity_pattern now pattern v,
     { is_valid := false, confidence := pattern.confidence,
       metrics := [("confidence", pattern.confidence)],
       anomalies := ["Pattern confidence too low"] })
  else if (find_similar_patterns (record_activity_pattern now pattern v)
            pattern).isEmpty then
    (record_activity_pattern now pattern v,
     validate_new_pattern (record_activity_pattern now pattern v) pattern)
  else
    (record_activity_pattern now pattern v,
     validate_against_history (record_activity_pattern now pattern v) pattern
       (find_similar_patterns (record_activity_pattern now pattern v) pattern))

/-- `PatternValidator._get_recent_changes`. -/
def get_recent_changes (now window : ℚ) (v : ValidatorState) :
    List ContextChange :=
  v.context_history.filter (fun c => decide (now - window < c.timestamp))

/-- `PatternValidator.validate_context_change`: records the candidate, prunes
history, then gates on confidence, duration and the 1-minute change rate. -/
def validate_context_change (now : ℚ) (change : ContextChange)
    (v : ValidatorState) : ValidatorState × ValidationResult :=
  if change.confidence < (record_context_change now change v).min_confidence then
    (record_context_change now change v,
     { is_valid := false, confidence := change.confidence,
       metrics := [("confidence", change.confidence)],
       anomalies := ["Context change confidence too low"] })
  else if change.change_duration
      < (record_context_change now change v).min_duration then
    (record_context_change now change v,
     { is_valid := false, confidence := 0,
       metrics := [("duration", change.change_duration)],
       anomalies := ["Context change duration too short"] })
  else if 5 < (get_recent_changes now 60 (record_context_change now change v)).length then
    (record_context_change now change v,
     { is_valid := false, confidence := 0,
       metrics := [("change_frequency",
         ((get_recent_changes now 60 (record_context_change now change v)).length : ℚ))],
       anomalies := ["Too many context changes"] })
  else
    (record_context_change now change v,
     { is_valid := true, confidence := change.confidence,
       metrics := [("duration", change.change_duration),
                   ("change_frequency",
                     ((get_recent_changes now 60 (record_context_change now change v)).length : ℚ))],
       anomalies := [] })

/-- Characterization of a successful `analyze_burst`: the input had at least
two keystrokes, the burst keeps them verbatim, and the elapsed time from the
first to the last keystroke is strictly positive. -/
theorem analyze_burst_eq_some {ks : List KeyStroke} {b : TypingBurst}
    (h : analyze_burst ks = some b) :
    2 ≤ ks.length ∧ b.keystrokes = ks ∧
      b.start_time = (ks.headD default).timestamp ∧
      b.end_time = (ks.getLastD default).timestamp ∧
      0 < b.end_time - b.start_time := by
  unfold analyze_burst at h
  split_ifs at h with h1 h2
  all_goals
    first
      | exact Option.noConfusion h
      | (have h3 := Option.some.inj h
         subst h3
         exact ⟨by omega, rfl, rfl, rfl, lt_of_not_le (by simpa using h2)⟩)

/-- Converse: with at least two keystrokes and positive elapsed time,
`analyze_burst` does return a burst. -/
theorem analyze_burst_isSome {ks : List KeyStroke}
    (h1 : 2 ≤ ks.length)
    (h2 : 0 < (ks.getLastD default).timestamp - (ks.headD default).timestamp) :
    (analyze_burst ks).isSome = true := by
  unfold analyze_burst
  rw [if_neg (by omega), if_neg (by simpa using not_le.mpr h2)]
  rfl

/-- Burst validity is preserved by feeding further keystrokes through
`_process_keystroke`. -/
theorem processAll_bursts_inv (input : List KeyStroke) (m : MonitorState)
    (hm : ∀ b ∈ m.bursts, 2 ≤ b.keystrokes.length ∧ 0 < b.end_time - b.start_time) :
    ∀ b ∈ (processAll input m).bursts,
      2 ≤ b.keystrokes.length ∧ 0 < b.end_time - b.start_time := by
  induction input generalizing m with
  | nil => exact hm
  | cons k rest ih =>
    show ∀ b ∈ (processAll rest (process_keystroke k m)).bursts, _
    apply ih
    intro b hb
    cases hcb : m.current_burst with
    | nil =>
      simp only [process_keystroke, hcb] at hb
      exact hm b hb
    | cons x xs =>
      simp only [process_keystroke, hcb] at hb
      split at hb
      · cases hab : analyze_burst (x :: xs) with
        | none => rw [hab] at hb; exact hm b hb
        | some b2 =>
          rw [hab] at hb
          simp only [List.mem_append, List.mem_singleton] at hb
          rcases hb with hb | hb
          · exact hm b hb
          · subst hb
            obtain ⟨hlen, hkeys, _, _, hdur⟩ := analyze_burst_eq_some hab
            exact ⟨hkeys ▸ hlen, hdur⟩
      · exact hm b hb

/-- C2: `analyze_burst` returns a burst exactly when the keystroke list has at
least 2 entries and strictly positive elapsed time between its first and last
keystroke (otherwise it totally returns `none`); consequently every burst
emitted by `_process_keystroke` from a fresh monitor has at least 2 keystrokes
and positive elapsed time — a lone keystroke never appears in an emitted
burst, and a zero-elapsed-time burst is discarded. -/
theorem C2_burst_iff_and_min_size :
    (∀ ks : List KeyStroke, (analyze_burst ks).isSome = true ↔
        2 ≤ ks.length ∧
          0 < (ks.getLastD default).timestamp - (ks.headD default).timestamp)
    ∧ (∀ input : List KeyStroke, ∀ b ∈ (processAll input freshMonitor).bursts,
        2 ≤ b.keystrokes.length ∧ 0 < b.end_time - b.start_time) := by
  constructor
  · intro ks
    constructor
    · intro h
      obtain ⟨b, hb⟩ := Option.isSome_iff_exists.mp h
      obtain ⟨hlen, _, hstart, hend, hdur⟩ := analyze_burst_eq_some hb
      exact ⟨hlen, by rw [← hstart, ← hend]; exact hdur⟩
    · intro ⟨h1, h2⟩
      exact analyze_burst_isSome h1 h2
  · intro input
    exact processAll_bursts_inv input freshMonitor (by simp [freshMonitor])

/-- C8: the recent-item reads of the `PatternRecognizer` are pure filters:
an item is returned exactly when it is stored and strictly newer than
`now - window` (so nothing at or past the cutoff ever appears), re-filtering
the returned list with the same cutoff changes nothing (idempotence), and on
a fresh recognizer both reads return the empty list. -/
theorem C8_recent_reads_windowed (now window : ℚ) (s : RecognizerState) (ws : ℚ) :
    (∀ p : ActivityPattern, p ∈ get_recent_patterns now window s ↔
        p ∈ s.activity_patterns ∧ now - window < p.end_time)
    ∧ (∀ c : ContextChange, c ∈ get_recent_context_changes now window s ↔
        c ∈ s.context_changes ∧ now - window < c.timestamp)
    ∧ ((get_recent_patterns now window s).filter
          (fun p => decide (now - window < p.end_time)) =
        get_recent_patterns now window s)
    ∧ ((get_recent_context_changes now window s).filter
          (fun c => decide (now - window < c.timestamp)) =
        get_recent_context_changes now window s)
    ∧ get_recent_patterns now window (freshRecognizer ws) = []
    ∧ get_recent_context_changes now window (freshRecognizer ws) = [] := by
  refine ⟨?_, ?_, ?_, ?_, rfl, rfl⟩
  · intro p
    simp [get_recent_patterns, List.mem_filter]
  · intro c
    simp [get_recent_context_changes, List.mem_filter]
  · apply List.filter_eq_self.mpr
    intro p hp
    simp only [get_recent_patterns, List.mem_filter] at hp
    exact hp.2
  · apply List.filter_eq_self.mpr
    intro c hc
    simp only [get_recent_context_changes, List.mem_filter] at hc
    exact hc.2

/-- C10: when the candidate's confidence is below `min_confidence`,
`validate_context_change` rejects with the candidate's own confidence (not 0)
and exactly the anomaly `Context change confidence too low`, regardless of
`change_duration` (the confidence gate precedes the duration gate), and the
candidate was already appended to the context history before any gate
(it survives there whenever it is inside the 30-minute history window). -/
theorem C10_low_confidence_gate (now : ℚ) (c : ContextChange) (v : ValidatorState)
    (h : c.confidence < v.min_confidence) :
    (validate_context_change now c v).2 =
      { is_valid := false, confidence := c.confidence,
        metrics := [("confidence", c.confidence)],
        anomalies := ["Context change confidence too low"] }
    ∧ (now - 1800 < c.timestamp →
        c ∈ (validate_context_change now c v).1.context_history) := by
  have hmin : (record_context_change now c v).min_confidence = v.min_confidence := rfl
  constructor
  · unfold validate_context_change
    rw [if_pos (by rw [hmin]; exact h)]
  · intro ht
    unfold validate_context_change
    rw [if_pos (by rw [hmin]; exact h)]
    simp [record_context_change, cleanup_old_patterns, List.mem_filter, ht]

/-- Witness for C10 at a concrete input whose duration is also below
`min_duration`: the confidence anomaly is still the one reported. -/
theorem C10_low_confidence_gate_witness :
    (validate_context_change 0
        { timestamp := 0, from_context := "focused", to_context := "switching",
          change_duration := 0, confidence := 1 / 4 }
        (freshValidator (1 / 2) 1 100)).2 =
      { is_valid := false, confidence := 1 / 4,
        metrics := [("confidence", 1 / 4)],
        anomalies := ["Context change confidence too low"] }
    ∧ { timestamp := (0 : ℚ), from_context := "focused", to_context := "switching",
        change_duration := 0, confidence := 1 / 4 } ∈
        (validate_context_change 0
          { timestamp := 0, from_context := "focused", to_context := "switching",
            change_duration := 0, confidence := 1 / 4 }
          (freshValidator (1 / 2) 1 100)).1.context_history := by
  have h := C10_low_confidence_gate 0
    { timestamp := 0, from_context := "focused", to_context := "switching",
      change_duration := 0, confidence := 1 / 4 }
    (freshValidator (1 / 2) 1 100) (by norm_num [freshValidator])
  exact ⟨h.1, h.2 (by norm_num)⟩

/-- The state component returned by `validate_context_change` is always the
recorded-and-pruned history, whichever gate fires. -/
theorem validate_context_change_fst (now : ℚ) (c : ContextChange)
    (v : ValidatorState) :
    (validate_context_change now c v).1 = record_context_change now c v := by
  unfold validate_context_change
  split_ifs <;> rfl

/-- History pruning is the identity when every stored item is inside the
30-minute window. -/
theorem cleanup_old_patterns_id (now : ℚ) (v : ValidatorState)
    (h1 : ∀ p ∈ v.pattern_history, now - 1800 < p.end_time)
    (h2 : ∀ c ∈ v.context_history, now - 1800 < c.timestamp) :
    cleanup_old_patterns now v = v := by
  unfold cleanup_old_patterns
  rw [List.filter_eq_self.mpr (fun a ha => by simpa using h1 a ha),
      List.filter_eq_self.mpr (fun a ha => by simpa using h2 a ha)]

/-- One `validate_context_change` call on a validator with empty pattern
history and in-window context history just appends the candidate. -/
theorem validate_context_change_step (mc md mv n nref : ℚ) (c : ContextChange)
    (l l2 : List ContextChange) (hl2 : l ++ [c] = l2) (hn : n ≤ nref)
    (hl : ∀ x ∈ l2, nref - 60 < x.timestamp) :
    (validate_context_change n c
      { min_confidence := mc, min_duration := md, max_variance := mv,
        pattern_history := [], context_history := l }).1 =
      { min_confidence := mc, min_duration := md, max_variance := mv,
        pattern_history := [], context_history := l2 } := by
  rw [validate_context_change_fst]
  unfold record_context_change
  show cleanup_old_patterns n
    { min_confidence := mc, min_duration := md, max_variance := mv,
      pattern_history := [], context_history := l ++ [c] } = _
  rw [hl2]
  exact cleanup_old_patterns_id n _ (by intro p hp; simp at hp)
    (fun x hx => by have := hl x hx; linarith)

/-- C7: six context changes whose timestamps all lie in the trailing
60-second window of the sixth call, each passing the confidence and duration
gates, make the sixth call fail the rate gate: it returns invalid with
confidence 0 and exactly the anomaly `Too many context changes`. -/
theorem C7_rate_gate (mc md mv n1 n2 n3 n4 n5 n6 : ℚ)
    (c1 c2 c3 c4 c5 c6 : ContextChange)
    (hn1 : n1 ≤ n6) (hn2 : n2 ≤ n6) (hn3 : n3 ≤ n6) (hn4 : n4 ≤ n6)
    (hn5 : n5 ≤ n6)
    (hc : ∀ c ∈ [c1, c2, c3, c4, c5, c6],
      mc ≤ c.confidence ∧ md ≤ c.change_duration ∧ n6 - 60 < c.timestamp) :
    (validate_context_change n6 c6
      ((validate_context_change n5 c5
        ((validate_context_change n4 c4
          ((validate_context_change n3 c3
            ((validate_context_change n2 c2
              ((validate_context_change n1 c1
                (freshValidator mc md mv)).1)).1)).1)).1)).1)).2 =
      { is_valid := false, confidence := 0,
        metrics := [("change_frequency", 6)],
        anomalies := ["Too many context changes"] } := by
  have h1 := hc c1 (by simp)
  have h2 := hc c2 (by simp)
  have h3 := hc c3 (by simp)
  have h4 := hc c4 (by simp)
  have h5 := hc c5 (by simp)
  have h6 := hc c6 (by simp)
  have hall : ∀ x ∈ [c1, c2, c3, c4, c5, c6], n6 - 60 < x.timestamp :=
    fun x hx => (hc x hx).2.2
  have s1 := validate_context_change_step mc md mv n1 n6 c1 [] [c1] rfl hn1
    (fun x hx => hall x (by simp at hx; simp [hx]))
  have s2 := validate_context_change_step mc md mv n2 n6 c2 [c1] [c1, c2] rfl hn2
    (fun x hx => hall x (by simp at hx; rcases hx with hx | hx <;> simp [hx]))
  have s3 := validate_context_change_step mc md mv n3 n6 c3 [c1, c2]
    [c1, c2, c3] rfl hn3
    (fun x hx => hall x (by simp at hx; rcases hx with hx | hx | hx <;> simp [hx]))
  have s4 := validate_context_change_step mc md mv n4 n6 c4 [c1, c2, c3]
    [c1, c2, c3, c4] rfl hn4
    (fun x hx => hall x
      (by simp at hx; rcases hx with hx | hx | hx | hx <;> simp [hx]))
  have s5 := validate_context_change_step mc md mv n5 n6 c5 [c1, c2, c3, c4]
    [c1, c2, c3, c4, c5] rfl hn5
    (fun x hx => hall x
      (by simp at hx; rcases hx with hx | hx | hx | hx | hx <;> simp [hx]))
  show (validate_context_change n6 c6 _).2 = _
  rw [show freshValidator mc md mv =
      { min_confidence := mc, min_duration := md, max_variance := mv,
        pattern_history := [],
        context_history := ([] : List ContextChange) } from rfl]
  rw [s1, s2, s3, s4, s5]
  have hrec : record_context_change n6 c6
      { min_confidence := mc, min_duration := md, max_variance := mv,
        pattern_history := [],
        context_history := [c1, c2, c3, c4, c5] } =
      { min_confidence := mc, min_duration := md, max_variance := mv,
        pattern_history := [],
        context_history := [c1, c2, c3, c4, c5, c6] } := by
    unfold record_context_change
    show cleanup_old_patterns n6
      { min_confidence := mc, min_duration := md, max_variance := mv,
        pattern_history := [],
        context_history := [c1, c2, c3, c4, c5] ++ [c6] } = _
    rw [show [c1, c2, c3, c4, c5] ++ [c6] = [c1, c2, c3, c4, c5, c6] from rfl]
    exact cleanup_old_patterns_id n6 _ (by intro p hp; simp at hp)
      (fun x hx => by have := hall x hx; linarith)
  have hrecent : get_recent_changes n6 60
      { min_confidence := mc, min_duration := md, max_variance := mv,
        pattern_history := [],
        context_history := [c1, c2, c3, c4, c5, c6] } =
      [c1, c2, c3, c4, c5, c6] :=
    List.filter_eq_self.mpr (fun x hx => by simpa using hall x hx)
  unfold validate_context_change
  rw [hrec, hrecent]
  rw [if_neg (not_lt.mpr h6.1), if_neg (not_lt.mpr h6.2.1),
      if_pos (by norm_num)]
  norm_num

/-- Witness for C7: six identical in-window context changes validated at
clock 0 on a default-threshold validator. -/
theorem C7_rate_gate_witness :
    (validate_context_change 0
        { timestamp := -5, from_context := "focused", to_context := "switching",
          change_duration := 2, confidence := 1 }
      ((validate_context_change 0
        { timestamp := -5, from_context := "focused", to_context := "switching",
          change_duration := 2, confidence := 1 }
      ((validate_context_change 0
        { timestamp := -5, from_context := "focused", to_context := "switching",
          change_duration := 2, confidence := 1 }
      ((validate_context_change 0
        { timestamp := -5, from_context := "focused", to_context := "switching",
          change_duration := 2, confidence := 1 }
      ((validate_context_change 0
        { timestamp := -5, from_context := "focused", to_context := "switching",
          change_duration := 2, confidence := 1 }
      ((validate_context_change 0
        { timestamp := -5, from_context := "focused", to_context := "switching",
          change_duration := 2, confidence := 1 }
        (freshValidator (1 / 2) 1 100)).1)).1)).1)).1)).1)).2 =
      { is_valid := false, confidence := 0,
        metrics := [("change_frequency", 6)],
        anomalies := ["Too many context changes"] } := by
  apply C7_rate_gate (1 / 2) 1 100 0 0 0 0 0 0
  all_goals norm_num

/-- C9 counterexample: constructing a `PatternRecognizer` with a negative
`window_size` and a `PatternValidator` with a negative `min_duration`
succeeds — the constructors raise no error, contradicting the claim that
invalid configurations are rejected eagerly. -/
theorem C9_counterexample :
    mkPatternRecognizer (-5) = Except.ok (freshRecognizer (-5))
    ∧ mkPatternValidator (1 / 2) (-1) 100 =
        Except.ok (freshValidator (1 / 2) (-1) 100) :=
  ⟨rfl, rfl⟩

/-- C9 (amended): construction never fails for any configuration value —
both `__init__` bodies perform no validation and simply store the given
values on the instance, so an instance with a negative configuration IS
created. -/
theorem C9_construction_never_fails (ws mc md mv : ℚ) :
    mkPatternRecognizer ws = Except.ok (freshRecognizer ws)
    ∧ (freshRecognizer ws).window_size = ws
    ∧ mkPatternValidator mc md mv = Except.ok (freshValidator mc md mv)
    ∧ (freshValidator mc md mv).min_confidence = mc
    ∧ (freshValidator mc md mv).min_duration = md
    ∧ (freshValidator mc md mv).max_variance = mv :=
  ⟨rfl, rfl, rfl, rfl, rfl, rfl⟩

/-- A historical pattern whose fields all equal the candidate used in the C6
counterexample. -/
def equalTwin : ActivityPattern :=
  { pattern_type := "typing", start_time := 0, end_time := 10,
    intensity := 1, confidence := 1, metrics := [] }

/-- C6 counterexample: with a previously recorded pattern all of whose
fields equal the candidate's sitting in the history, the similarity lookup
performed by validation returns the empty list — dataclass `!=` is
structural, so the equal-valued prior pattern is dropped along with the
just-appended copy, contradicting the claim that it is among the results. -/
theorem C6_counterexample :
    find_similar_patterns
      (record_activity_pattern 10 equalTwin
        { min_confidence := 1 / 2, min_duration := 1, max_variance := 100,
          pattern_history := [equalTwin], context_history := [] })
      equalTwin = []
    ∧ equalTwin ∈ (record_activity_pattern 10 equalTwin
        { min_confidence := 1 / 2, min_duration := 1, max_variance := 100,
          pattern_history := [equalTwin], context_history := [] }).pattern_history := by
  constructor
  · simp [find_similar_patterns, record_activity_pattern, cleanup_old_patterns,
      equalTwin]
  · simp [record_activity_pattern, cleanup_old_patterns, equalTwin]

/-- C6 (amended): during validation the similarity lookup returns exactly the
previously recorded in-window patterns with the candidate's `pattern_type`
and intensity within 0.2 that are NOT structurally equal to the candidate;
in particular the just-appended copy is never among the results, and neither
is a prior pattern all of whose fields equal the candidate's. -/
theorem C6_similar_membership (now : ℚ) (p : ActivityPattern)
    (v : ValidatorState) :
    (∀ q : ActivityPattern,
      q ∈ find_similar_patterns (record_activity_pattern now p v) p ↔
        q ∈ v.pattern_history ∧ now - 1800 < q.end_time
          ∧ q.pattern_type = p.pattern_type
          ∧ |q.intensity - p.intensity| < 1 / 5 ∧ q ≠ p)
    ∧ p ∉ find_similar_patterns (record_activity_pattern now p v) p := by
  have hiff : ∀ q : ActivityPattern,
      q ∈ find_similar_patterns (record_activity_pattern now p v) p ↔
        q ∈ v.pattern_history ∧ now - 1800 < q.end_time
          ∧ q.pattern_type = p.pattern_type
          ∧ |q.intensity - p.intensity| < 1 / 5 ∧ q ≠ p := by
    intro q
    simp only [find_similar_patterns, record_activity_pattern,
      cleanup_old_patterns, List.mem_filter, List.mem_append,
      List.mem_singleton, Bool.and_eq_true, beq_iff_eq, decide_eq_true_eq,
      ne_eq]
    tauto
  exact ⟨hiff, fun hp => ((hiff p).mp hp).2.2.2.2 rfl⟩

/-- The anomaly labels contributed by one metric, as a single guard:
flagged exactly when some similar pattern carries the metric, the variance is
positive, and the deviation-over-variance ratio exceeds `max_variance`. -/
theorem histEntry_fst (v : ValidatorState) (S : List ActivityPattern)
    (e : String × ℚ) :
    (histEntry v S e).1 =
      if histVals S e.1 ≠ [] ∧ 0 < histVarOf S e.1
          ∧ v.max_variance < |e.2 - mean (histVals S e.1)| / histVarOf S e.1
      then ["Unusual " ++ e.1 ++ " value"] else [] := by
  unfold histEntry
  by_cases hemp : (histVals S e.1).isEmpty
  · rw [if_pos hemp, if_neg (by simp [List.isEmpty_iff.mp hemp])]
  · rw [if_neg hemp]
    have hne : histVals S e.1 ≠ [] := by
      simpa [List.isEmpty_iff] using hemp
    by_cases hcond : 0 < histVarOf S e.1
        ∧ v.max_variance < |e.2 - mean (histVals S e.1)| / histVarOf S e.1
    · rw [if_pos hcond, if_pos ⟨hne, hcond.1, hcond.2⟩]
    · rw [if_neg hcond, if_neg (by tauto)]

/-- The anomaly list of `_validate_against_history` as one pass over the
candidate's metrics. -/
theorem historyAnomalies_eq (v : ValidatorState) (p : ActivityPattern)
    (S : List ActivityPattern) :
    historyAnomalies v p S =
      p.metrics.flatMap (fun e =>
        if histVals S e.1 ≠ [] ∧ 0 < histVarOf S e.1
            ∧ v.max_variance < |e.2 - mean (histVals S e.1)| / histVarOf S e.1
        then ["Unusual " ++ e.1 ++ " value"] else []) := by
  unfold historyAnomalies
  generalize p.metrics = l
  induction l with
  | nil => rfl
  | cons e rest ih =>
    rw [List.map_cons, List.flatten_cons, List.flatMap_cons, histEntry_fst, ih]

/-- C5: when the basic gates pass and similar historical patterns exist,
validation compares each candidate metric against the mean and variance of
the similar patterns carrying it, flags `Unusual <metric> value` exactly when
that variance is positive and `|current - mean| / variance` exceeds
`max_variance` (variance 0 never triggers), returns the clamped confidence
`min 1 (max 0 (base + 0.1·|similar| - 0.2·|anomalies|))`, and is valid
exactly when that confidence reaches `min_confidence` and no anomaly was
flagged. -/
theorem C5_history_validation (now : ℚ) (p : ActivityPattern)
    (v : ValidatorState)
    (hdur : v.min_duration ≤ p.end_time - p.start_time)
    (hconf : v.min_confidence ≤ p.confidence)
    (hsim : find_similar_patterns (record_activity_pattern now p v) p ≠ []) :
    (validate_activity_pattern now p v).2.anomalies =
      p.metrics.flatMap (fun e =>
        if histVals (find_similar_patterns (record_activity_pattern now p v) p)
              e.1 ≠ []
            ∧ 0 < histVarOf
                (find_similar_patterns (record_activity_pattern now p v) p) e.1
            ∧ v.max_variance
              < |e.2 - mean (histVals
                  (find_similar_patterns (record_activity_pattern now p v) p)
                  e.1)|
                / histVarOf
                  (find_similar_patterns (record_activity_pattern now p v) p)
                  e.1
        then ["Unusual " ++ e.1 ++ " value"] else [])
    ∧ (validate_activity_pattern now p v).2.confidence =
        min 1 (max 0 (p.confidence
          + ((find_similar_patterns (record_activity_pattern now p v)
              p).length : ℚ) * (1 / 10)
          - (((validate_activity_pattern now p v).2.anomalies).length : ℚ)
              * (1 / 5)))
    ∧ ((validate_activity_pattern now p v).2.is_valid = true ↔
        v.min_confidence ≤ (validate_activity_pattern now p v).2.confidence
          ∧ (validate_activity_pattern now p v).2.anomalies = []) := by
  have hres : (validate_activity_pattern now p v).2 =
      validate_against_history (record_activity_pattern now p v) p
        (find_similar_patterns (record_activity_pattern now p v) p) := by
    unfold validate_activity_pattern
    rw [show (record_activity_pattern now p v).min_duration = v.min_duration
          from rfl,
        show (record_activity_pattern now p v).min_confidence = v.min_confidence
          from rfl,
        if_neg (not_lt.mpr hdur), if_neg (not_lt.mpr hconf),
        if_neg (by simpa [List.isEmpty_iff] using hsim)]
  refine ⟨?_, ?_, ?_⟩
  · rw [hres]
    show historyAnomalies _ p _ = _
    rw [historyAnomalies_eq]
    simp only [show (record_activity_pattern now p v).max_variance
      = v.max_variance from rfl]
  · rw [hres]
    rfl
  · rw [hres]
    show (decide _ && _) = true ↔ _
    rw [Bool.and_eq_true, decide_eq_true_eq, List.isEmpty_iff]
    exact Iff.rfl

/-- The candidate pattern used by the C5 witness. -/
def patternW5 : ActivityPattern :=
  { pattern_type := "typing", start_time := 0, end_time := 10, intensity := 1,
    confidence := 3 / 5, metrics := [("avg_speed", 50)] }

/-- A previously recorded similar pattern used by the C5 witness. -/
def priorW5 : ActivityPattern :=
  { pattern_type := "typing", start_time := 0, end_time := 10, intensity := 1,
    confidence := 7 / 10, metrics := [("avg_speed", 60)] }

/-- The validator state used by the C5 witness. -/
def validatorW5 : ValidatorState :=
  { min_confidence := 1 / 2, min_duration := 1, max_variance := 100,
    pattern_history := [priorW5], context_history := [] }

/-- Witness for C5 at a concrete validation call for which one similar
historical pattern exists. -/
theorem C5_history_validation_witness :
    (validate_activity_pattern 10 patternW5 validatorW5).2.anomalies =
      patternW5.metrics.flatMap (fun e =>
        if histVals (find_similar_patterns
              (record_activity_pattern 10 patternW5 validatorW5) patternW5)
              e.1 ≠ []
            ∧ 0 < histVarOf (find_similar_patterns
                (record_activity_pattern 10 patternW5 validatorW5) patternW5)
                e.1
            ∧ validatorW5.max_variance
              < |e.2 - mean (histVals (find_similar_patterns
                  (record_activity_pattern 10 patternW5 validatorW5)
                  patternW5) e.1)|
                / histVarOf (find_similar_patterns
                  (record_activity_pattern 10 patternW5 validatorW5)
                  patternW5) e.1
        then ["Unusual " ++ e.1 ++ " value"] else [])
    ∧ (validate_activity_pattern 10 patternW5 validatorW5).2.confidence =
        min 1 (max 0 (patternW5.confidence
          + ((find_similar_patterns
              (record_activity_pattern 10 patternW5 validatorW5)
              patternW5).length : ℚ) * (1 / 10)
          - (((validate_activity_pattern 10 patternW5
                validatorW5).2.anomalies).length : ℚ) * (1 / 5)))
    ∧ ((validate_activity_pattern 10 patternW5 validatorW5).2.is_valid = true ↔
        validatorW5.min_confidence
            ≤ (validate_activity_pattern 10 patternW5 validatorW5).2.confidence
          ∧ (validate_activity_pattern 10 patternW5
              validatorW5).2.anomalies = []) := by
  apply C5_history_validation 10 patternW5 validatorW5
  · norm_num [validatorW5, patternW5]
  · norm_num [validatorW5, patternW5]
  · norm_num [find_similar_patterns, record_activity_pattern,
      cleanup_old_patterns, validatorW5, patternW5, priorW5]

/-- The mean of a list of nonnegative rationals is nonnegative. -/
theorem mean_nonneg {l : List ℚ} (h : ∀ x ∈ l, 0 ≤ x) : 0 ≤ mean l :=
  div_nonneg (List.sum_nonneg h) (Nat.cast_nonneg _)

/-- Every element of a list is bounded by the running `max` fold. -/
theorem foldl_max_bounds (as : List ℚ) (a : ℚ) :
    a ≤ as.foldl max a ∧ ∀ x ∈ as, x ≤ as.foldl max a := by
  induction as generalizing a with
  | nil => exact ⟨le_refl a, by simp⟩
  | cons b bs ih =>
    obtain ⟨h1, h2⟩ := ih (max a b)
    refine ⟨le_trans (le_max_left a b) h1, ?_⟩
    intro x hx
    rcases List.mem_cons.mp hx with hx | hx
    · rw [hx]
      exact le_trans (le_max_right a b) h1
    · exact h2 x hx

/-- Every element of a list is at most its Python `max`. -/
theorem le_pyMax {l : List ℚ} {x : ℚ} (h : x ∈ l) : x ≤ pyMax l := by
  cases l with
  | nil => simp at h
  | cons a as =>
    rcases List.mem_cons.mp h with h | h
    · subst h; exact (foldl_max_bounds as x).1
    · exact (foldl_max_bounds as a).2 x h

/-- The mean of a nonempty list is at most its Python `max`. -/
theorem mean_le_pyMax {l : List ℚ} (h : l ≠ []) : mean l ≤ pyMax l := by
  have hlen : 0 < (l.length : ℚ) := by
    have := List.length_pos.mpr h
    exact_mod_cast this
  rw [mean, div_le_iff₀ hlen]
  have := List.sum_le_card_nsmul l (pyMax l) (fun x hx => le_pyMax hx)
  rw [nsmul_eq_mul] at this
  linarith

/-- Sample variance is nonnegative as soon as two data points exist. -/
theorem svariance_nonneg {l : List ℚ} (h : 2 ≤ l.length) : 0 ≤ svariance l := by
  apply div_nonneg
  · exact List.sum_nonneg (by
      intro x hx
      obtain ⟨y, _, rfl⟩ := List.mem_map.mp hx
      positivity)
  · have : (2 : ℚ) ≤ (l.length : ℚ) := by exact_mod_cast h
    linarith

/-- The typing-pattern consistency score always lies in `[0, 1]`. -/
theorem typingConsistency_mem (s : RecognizerState) :
    0 ≤ typingConsistency s ∧ typingConsistency s ≤ 1 := by
  unfold typingConsistency
  split_ifs with h
  · have hv : 0 ≤ svariance (typingSpeeds s) := svariance_nonneg (by omega)
    constructor
    · positivity
    · rw [div_le_one (by linarith)]
      linarith
  · norm_num

/-- When every retained typing speed is nonnegative, the typing-pattern
intensity lies in `[0, 1]`. -/
theorem typingIntensity_mem (s : RecognizerState)
    (h : ∀ p ∈ s.typing_history, 0 ≤ p.avg_speed) :
    0 ≤ typingIntensity s ∧ typingIntensity s ≤ 1 := by
  unfold typingIntensity
  split_ifs with hmax
  · have hspeeds : ∀ x ∈ typingSpeeds s, 0 ≤ x := by
      intro x hx
      obtain ⟨p, hp, rfl⟩ := List.mem_map.mp hx
      exact h p hp
    have hne : typingSpeeds s ≠ [] := by
      intro he
      rw [he] at hmax
      simp [pyMax] at hmax
    constructor
    · exact div_nonneg (mean_nonneg hspeeds) (le_of_lt hmax)
    · rw [div_le_one hmax]
      exact mean_le_pyMax hne
  · norm_num

/-- Nonnegativity requirement on one ingestion event: typing samples carry a
nonnegative speed, activity samples a nonnegative tool-switch count. -/
def NonnegEvent : RecEvent → Prop
  | RecEvent.typing _ p => 0 ≤ p.avg_speed
  | RecEvent.activity _ m => 0 ≤ m.tool_switches

/-- Range invariant: all retained samples satisfy the nonnegativity inputs
and every stored pattern/change has intensity and confidence in `[0, 1]`. -/
def RangeInv (s : RecognizerState) : Prop :=
  (∀ p ∈ s.typing_history, 0 ≤ p.avg_speed)
  ∧ (∀ m ∈ s.activity_history, 0 ≤ m.tool_switches)
  ∧ (∀ p ∈ s.activity_patterns,
      0 ≤ p.intensity ∧ p.intensity ≤ 1 ∧ 0 ≤ p.confidence ∧ p.confidence ≤ 1)
  ∧ (∀ c ∈ s.context_changes, 0 ≤ c.confidence ∧ c.confidence ≤ 1)

/-- Window eviction preserves the range invariant. -/
theorem cleanup_old_data_RangeInv (now : ℚ) (s : RecognizerState)
    (h : RangeInv s) : RangeInv (cleanup_old_data now s) := by
  obtain ⟨h1, h2, h3, h4⟩ := h
  refine ⟨?_, ?_, ?_, ?_⟩ <;> intro x hx <;>
    first
      | exact h1 x (List.mem_of_mem_filter hx)
      | exact h2 x (List.mem_of_mem_filter hx)
      | exact h3 x (List.mem_of_mem_filter hx)
      | exact h4 x (List.mem_of_mem_filter hx)

/-- Typing analysis preserves the range invariant. -/
theorem analyze_typing_patterns_RangeInv (s : RecognizerState)
    (h : RangeInv s) : RangeInv (analyze_typing_patterns s) := by
  obtain ⟨h1, h2, h3, h4⟩ := h
  unfold analyze_typing_patterns
  split_ifs with he
  · exact ⟨h1, h2, h3, h4⟩
  · refine ⟨h1, h2, ?_, h4⟩
    intro p hp
    rcases List.mem_append.mp hp with hp | hp
    · exact h3 p (List.mem_of_mem_filter hp)
    · rw [List.mem_singleton.mp hp]
      obtain ⟨hi0, hi1⟩ := typingIntensity_mem s h1
      obtain ⟨hc0, hc1⟩ := typingConsistency_mem s
      exact ⟨hi0, hi1, hc0, hc1⟩

/-- Both members of a consecutive pair belong to the underlying list. -/
theorem consecPairs_mem {l : List α} {q : α × α} (h : q ∈ consecPairs l) :
    q.1 ∈ l ∧ q.2 ∈ l := by
  induction l with
  | nil => simp [consecPairs] at h
  | cons a rest ih =>
    cases rest with
    | nil => simp [consecPairs] at h
    | cons b rest2 =>
      rcases List.mem_cons.mp h with h | h
      · subst h
        exact ⟨List.mem_cons_self _ _, List.mem_cons_of_mem _ (List.mem_cons_self _ _)⟩
      · obtain ⟨hq1, hq2⟩ := ih h
        exact ⟨List.mem_cons_of_mem _ hq1, List.mem_cons_of_mem _ hq2⟩

/-- A detected context change over a sample with nonnegative tool switches
has confidence in `[0, 1]`. -/
theorem detectContextChange_range {prev curr : ActivityMetrics}
    {c : ContextChange} (hd : detectContextChange prev curr = some c)
    (hts : 0 ≤ curr.tool_switches) :
    0 ≤ c.confidence ∧ c.confidence ≤ 1 := by
  unfold detectContextChange at hd
  split_ifs at hd
  · have hc := Option.some.inj hd
    subst hc
    constructor
    · apply le_min (by norm_num)
      apply div_nonneg _ (by norm_num)
      exact_mod_cast hts
    · exact min_le_left _ _

/-- A detected tool pattern over a sample with nonnegative tool switches has
intensity and confidence in `[0, 1]`. -/
theorem detectToolPattern_range {prev curr : ActivityMetrics}
    {p : ActivityPattern} (hd : detectToolPattern prev curr = some p)
    (hts : 0 ≤ curr.tool_switches) :
    0 ≤ p.intensity ∧ p.intensity ≤ 1 ∧ 0 ≤ p.confidence ∧ p.confidence ≤ 1 := by
  unfold detectToolPattern at hd
  split_ifs at hd
  · have hp := Option.some.inj hd
    subst hp
    refine ⟨?_, min_le_left _ _, by norm_num, by norm_num⟩
    apply le_min (by norm_num)
    apply div_nonneg _ (by norm_num)
    exact_mod_cast hts

/-- Activity analysis preserves the range invariant. -/
theorem analyze_activity_metrics_RangeInv (s : RecognizerState)
    (h : RangeInv s) : RangeInv (analyze_activity_metrics s) := by
  obtain ⟨h1, h2, h3, h4⟩ := h
  unfold analyze_activity_metrics
  split_ifs with he
  · exact ⟨h1, h2, h3, h4⟩
  · refine ⟨h1, h2, ?_, ?_⟩
    · intro p hp
      rcases List.mem_append.mp hp with hp | hp
      · exact h3 p hp
      · obtain ⟨q, hq, hd⟩ := List.mem_filterMap.mp hp
        exact detectToolPattern_range hd (h2 q.2 (consecPairs_mem hq).2)
    · intro c hc
      rcases List.mem_append.mp hc with hc | hc
      · exact h4 c hc
      · obtain ⟨q, hq, hd⟩ := List.mem_filterMap.mp hc
        exact detectContextChange_range hd (h2 q.2 (consecPairs_mem hq).2)

/-- One ingestion event with nonnegative inputs preserves the range
invariant. -/
theorem applyEvent_RangeInv (s : RecognizerState) (e : RecEvent)
    (h : RangeInv s) (he : NonnegEvent e) : RangeInv (applyEvent s e) := by
  obtain ⟨h1, h2, h3, h4⟩ := h
  cases e with
  | typing now p =>
    apply analyze_typing_patterns_RangeInv
    apply cleanup_old_data_RangeInv
    refine ⟨?_, h2, h3, h4⟩
    intro x hx
    rcases List.mem_append.mp hx with hx | hx
    · exact h1 x hx
    · rw [List.mem_singleton.mp hx]
      exact he
  | activity now m =>
    apply analyze_activity_metrics_RangeInv
    apply cleanup_old_data_RangeInv
    refine ⟨h1, ?_, h3, h4⟩
    intro x hx
    rcases List.mem_append.mp hx with hx | hx
    · exact h2 x hx
    · rw [List.mem_singleton.mp hx]
      exact he

/-- The range invariant is preserved by any event sequence with nonnegative
inputs. -/
theorem runEvents_RangeInv (es : List RecEvent) (s : RecognizerState)
    (h : RangeInv s) (hes : ∀ e ∈ es, NonnegEvent e) :
    RangeInv (runEvents s es) := by
  induction es generalizing s with
  | nil => exact h
  | cons e rest ih =>
    exact ih (applyEvent s e)
      (applyEvent_RangeInv s e h (hes e (List.mem_cons_self _ _)))
      (fun x hx => hes x (List.mem_cons_of_mem _ hx))

/-- C1 counterexample: ingesting two typing samples with speeds −30 and 10
(at clock 0, window 300) leaves a `typing` pattern of intensity −1 in the
recognizer's output — intensity is NOT clamped to `[0, 1]` for arbitrary
inputs, refuting the claim as stated over every sample sequence. -/
theorem C1_counterexample :
    ∃ p ∈ (add_typing_pattern 0
        { avg_speed := 10, burst_duration := 0, pause_duration := 0,
          timestamp := 0 }
        (add_typing_pattern 0
          { avg_speed := -30, burst_duration := 0, pause_duration := 0,
            timestamp := 0 }
          (freshRecognizer 300))).activity_patterns,
      p.intensity < 0 := by
  norm_num [add_typing_pattern, cleanup_old_data, analyze_typing_patterns,
    typingSummary, typingIntensity, typingConsistency, typingSpeeds,
    freshRecognizer, mean, svariance, pyMax]

/-- C1 (amended): for every ingestion sequence whose typing samples have
nonnegative `avg_speed` and whose activity samples have nonnegative
`tool_switches` (true of all values the upstream monitors produce), every
`ActivityPattern` ever stored has intensity and confidence in `[0, 1]` and
every `ContextChange` has confidence in `[0, 1]`. -/
theorem C1_ranges (w : ℚ) (es : List RecEvent)
    (hes : ∀ e ∈ es, NonnegEvent e) :
    (∀ p ∈ (runEvents (freshRecognizer w) es).activity_patterns,
      0 ≤ p.intensity ∧ p.intensity ≤ 1
        ∧ 0 ≤ p.confidence ∧ p.confidence ≤ 1)
    ∧ (∀ c ∈ (runEvents (freshRecognizer w) es).context_changes,
      0 ≤ c.confidence ∧ c.confidence ≤ 1) := by
  have h := runEvents_RangeInv es (freshRecognizer w)
    ⟨by simp [freshRecognizer], by simp [freshRecognizer],
     by simp [freshRecognizer], by simp [freshRecognizer]⟩ hes
  exact ⟨h.2.2.1, h.2.2.2⟩

/-- Witness for C1 (amended) on a concrete nonnegative ingestion sequence. -/
theorem C1_ranges_witness :
    (∀ p ∈ (runEvents (freshRecognizer 300)
        [RecEvent.typing 0
          { avg_speed := 60, burst_duration := 2, pause_duration := 1,
            timestamp := 0 },
         RecEvent.activity 1
          { typing_speed := 60, focus_duration := 300, tool_switches := 1,
            timestamp := 1 },
         RecEvent.activity 2
          { typing_speed := 30, focus_duration := 60, tool_switches := 3,
            timestamp := 2 }]).activity_patterns,
      0 ≤ p.intensity ∧ p.intensity ≤ 1
        ∧ 0 ≤ p.confidence ∧ p.confidence ≤ 1)
    ∧ (∀ c ∈ (runEvents (freshRecognizer 300)
        [RecEvent.typing 0
          { avg_speed := 60, burst_duration := 2, pause_duration := 1,
            timestamp := 0 },
         RecEvent.activity 1
          { typing_speed := 60, focus_duration := 300, tool_switches := 1,
            timestamp := 1 },
         RecEvent.activity 2
          { typing_speed := 30, focus_duration := 60, tool_switches := 3,
            timestamp := 2 }]).context_changes,
      0 ≤ c.confidence ∧ c.confidence ≤ 1) := by
  apply C1_ranges
  intro e he
  simp only [List.mem_cons, List.not_mem_nil, or_false] at he
  rcases he with he | he | he <;> subst he <;> norm_num [NonnegEvent]

/-- Every change produced by one scan carries the timestamp of one of the
scanned samples. -/
theorem qualifyingChanges_timestamp {xs : List ActivityMetrics}
    {c : ContextChange} (h : c ∈ qualifyingChanges xs) :
    ∃ x ∈ xs, c.timestamp = x.timestamp := by
  obtain ⟨q, hq, hd⟩ := List.mem_filterMap.mp h
  unfold detectContextChange at hd
  split_ifs at hd
  have hc := Option.some.inj hd
  exact ⟨q.2, (consecPairs_mem hq).2, by rw [← hc]⟩

/-- Every tool pattern produced by one scan ends at the timestamp of one of
the scanned samples. -/
theorem qualifyingToolPatterns_end {xs : List ActivityMetrics}
    {p : ActivityPattern} (h : p ∈ qualifyingToolPatterns xs) :
    ∃ x ∈ xs, p.end_time = x.timestamp := by
  obtain ⟨q, hq, hd⟩ := List.mem_filterMap.mp h
  unfold detectToolPattern at hd
  split_ifs at hd
  have hc := Option.some.inj hd
  exact ⟨q.2, (consecPairs_mem hq).2, by rw [← hc]⟩

/-- The running context-change log predicted for an in-window ingestion
sequence: call `k+1` re-scans the first `k+1` samples in full. -/
def changesLog (ms : List ActivityMetrics) : List ContextChange :=
  ((List.range ms.length).map
    (fun k => qualifyingChanges (ms.take (k + 1)))).flatten

/-- Appending one sample extends the predicted log by one full re-scan of the
whole extended history. -/
theorem changesLog_append (ms : List ActivityMetrics) (m : ActivityMetrics) :
    changesLog (ms ++ [m]) = changesLog ms ++ qualifyingChanges (ms ++ [m]) := by
  unfold changesLog
  rw [List.length_append, List.length_singleton, List.range_succ,
      List.map_append, List.flatten_append]
  congr 1
  · congr 1
    apply List.map_congr_left
    intro k hk
    have hk2 : k + 1 ≤ ms.length := by
      have := List.mem_range.mp hk
      omega
    rw [List.take_append_of_le_length hk2]
  · simp [List.take_of_length_le]

/-- Invariant carried through the C3 induction. -/
def C3Inv (w now : ℚ) (ms : List ActivityMetrics) (s : RecognizerState) :
    Prop :=
  s.window_size = w ∧ s.typing_history = [] ∧ s.activity_history = ms
    ∧ s.context_changes = changesLog ms
    ∧ (∀ p ∈ s.activity_patterns, now - w < p.end_time)

/-- One in-window activity ingestion extends the state as predicted. -/
theorem add_activity_metrics_C3Inv (w now : ℚ) (ms : List ActivityMetrics)
    (m : ActivityMetrics) (s : RecognizerState) (hs : C3Inv w now ms s)
    (hw : ∀ x ∈ ms ++ [m], now - w < x.timestamp) :
    C3Inv w now (ms ++ [m]) (add_activity_metrics now m s) := by
  obtain ⟨hwsz, hty, hact, hch, hpat⟩ := hs
  have hchts : ∀ c ∈ s.context_changes, now - w < c.timestamp := by
    intro c hc
    rw [hch] at hc
    obtain ⟨sub, hsub, hcin⟩ := List.mem_flatten.mp hc
    obtain ⟨k, _, rfl⟩ := List.mem_map.mp hsub
    obtain ⟨x, hxmem, hts⟩ := qualifyingChanges_timestamp hcin
    rw [hts]
    exact hw x (List.mem_append_left _ (List.mem_of_mem_take hxmem))
  have hclean : cleanup_old_data now
      { s with activity_history := s.activity_history ++ [m] } =
      { s with activity_history := ms ++ [m] } := by
    unfold cleanup_old_data
    simp only [hwsz, hty, hact, List.filter_nil]
    rw [List.filter_eq_self.mpr (fun (x : ActivityMetrics) hx => by
          simpa using hw x hx),
        List.filter_eq_self.mpr (fun (p : ActivityPattern) hp => by
          simpa using hpat p hp),
        List.filter_eq_self.mpr (fun (c : ContextChange) hc => by
          simpa using hchts c hc)]
  unfold add_activity_metrics
  rw [hclean]
  by_cases hms : ms = []
  · subst hms
    unfold analyze_activity_metrics
    split_ifs with hg
    · refine ⟨hwsz, hty, rfl, ?_, hpat⟩
      rw [hch]
      rfl
    · exact absurd (by simp :
        ({ s with activity_history := [] ++ [m] } :
          RecognizerState).activity_history.length < 2) hg
  · unfold analyze_activity_metrics
    split_ifs with hg
    · have : 1 ≤ ms.length := List.length_pos.mpr hms
      have hg2 : ({ s with activity_history := ms ++ [m] } :
          RecognizerState).activity_history.length = ms.length + 1 := by
        simp
      omega
    · refine ⟨hwsz, hty, rfl, ?_, ?_⟩
      · show s.context_changes ++ qualifyingChanges (ms ++ [m])
          = changesLog (ms ++ [m])
        rw [hch, changesLog_append]
      · intro p hp
        have hp2 : p ∈ s.activity_patterns
            ++ qualifyingToolPatterns (ms ++ [m]) := hp
        rcases List.mem_append.mp hp2 with hp3 | hp3
        · exact hpat p hp3
        · obtain ⟨x, hx, hend⟩ := qualifyingToolPatterns_end hp3
          rw [hend]
          exact hw x hx

/-- C3 (amended): ingesting activity metrics one by one (all inside the
window) makes `context_changes` the concatenation of one FULL re-scan per
call: call `k` appends one `ContextChange` — with the fields built by
`detectContextChange` (timestamp `curr.timestamp`, `focused`→`switching`,
`change_duration = curr.focus_duration`, confidence
`min 1 (curr.tool_switches / 5)`) — for EVERY consecutive pair of the first
`k` samples with decreasing focus, so a transition is re-recorded by every
later ingestion while its samples remain retained, not recorded exactly
once. -/
theorem C3_rescan_log (w now : ℚ) (ms : List ActivityMetrics)
    (hw : ∀ x ∈ ms, now - w < x.timestamp) :
    (ingestActivityAll now ms (freshRecognizer w)).context_changes =
      ((List.range ms.length).map
        (fun k => qualifyingChanges (ms.take (k + 1)))).flatten := by
  suffices h : ∀ ms2 : List ActivityMetrics,
      (∀ x ∈ ms2, now - w < x.timestamp) →
      C3Inv w now ms2 (ingestActivityAll now ms2 (freshRecognizer w)) by
    exact (h ms hw).2.2.2.1
  intro ms2
  induction ms2 using List.reverseRecOn with
  | nil =>
    intro _
    refine ⟨rfl, rfl, rfl, rfl, ?_⟩
    intro p hp
    simp [ingestActivityAll, freshRecognizer] at hp
  | append_singleton ms3 m ih =>
    intro hw2
    have hstep : ingestActivityAll now (ms3 ++ [m]) (freshRecognizer w) =
        add_activity_metrics now m
          (ingestActivityAll now ms3 (freshRecognizer w)) := by
      unfold ingestActivityAll
      rw [List.foldl_append]
      rfl
    rw [hstep]
    exact add_activity_metrics_C3Inv w now ms3 m _
      (ih (fun x hx => hw2 x (List.mem_append_left _ hx))) hw2

/-- First activity sample of the C3 scenario. -/
def metricA : ActivityMetrics :=
  { typing_speed := 60, focus_duration := 300, tool_switches := 1,
    timestamp := 0 }

/-- Second activity sample of the C3 scenario (focus break). -/
def metricB : ActivityMetrics :=
  { typing_speed := 30, focus_duration := 60, tool_switches := 3,
    timestamp := 5 }

/-- Third activity sample of the C3 scenario (further focus drop). -/
def metricC : ActivityMetrics :=
  { typing_speed := 45, focus_duration := 30, tool_switches := 5,
    timestamp := 10 }

/-- C3 counterexample: ingesting three in-window samples with decreasing
focus in timestamp order records the FIRST transition twice (once at the
second call and again when the third call re-scans the full history), so the
`context_changes` list is not one entry per transition. -/
theorem C3_counterexample :
    (ingestActivityAll 10 [metricA, metricB, metricC]
      (freshRecognizer 300)).context_changes =
      [{ timestamp := 5, from_context := "focused", to_context := "switching",
         change_duration := 60, confidence := 3 / 5 },
       { timestamp := 5, from_context := "focused", to_context := "switching",
         change_duration := 60, confidence := 3 / 5 },
       { timestamp := 10, from_context := "focused", to_context := "switching",
         change_duration := 30, confidence := 1 }] := by
  norm_num [ingestActivityAll, add_activity_metrics, cleanup_old_data,
    analyze_activity_metrics, qualifyingChanges, qualifyingToolPatterns,
    consecPairs, detectContextChange, detectToolPattern, freshRecognizer,
    metricA, metricB, metricC, min_def, List.filterMap_cons, List.filterMap_nil,
    List.filter_cons, List.filter_nil]

/-- Witness for C3 (amended) at the concrete three-sample scenario. -/
theorem C3_rescan_log_witness :
    (∀ x ∈ [metricA, metricB, metricC], (10 : ℚ) - 300 < x.timestamp)
    ∧ (ingestActivityAll 10 [metricA, metricB, metricC]
        (freshRecognizer 300)).context_changes =
      ((List.range 3).map
        (fun k => qualifyingChanges
          ([metricA, metricB, metricC].take (k + 1)))).flatten := by
  have hw : ∀ x ∈ [metricA, metricB, metricC], (10 : ℚ) - 300 < x.timestamp := by
    intro x hx
    simp only [List.mem_cons, List.not_mem_nil, or_false] at hx
    rcases hx with hx | hx | hx <;> rw [hx] <;>
      norm_num [metricA, metricB, metricC]
  refine ⟨hw, ?_⟩
  have h := C3_rescan_log 300 10 [metricA, metricB, metricC] hw
  simpa using h

/-- `getLastD` of a nonempty list is a member. -/
theorem getLastD_mem {α : Type} {l : List α} (d : α) (h : l ≠ []) :
    l.getLastD d ∈ l := by
  rw [List.getLastD_eq_getLast?, List.getLast?_eq_getLast l h, Option.getD_some]
  exact List.getLast_mem h

/-- `headD` of a nonempty list is a member. -/
theorem headD_mem {α : Type} {l : List α} (d : α) (h : l ≠ []) :
    l.headD d ∈ l := by
  rw [List.headD_eq_head?, List.head?_eq_head h, Option.getD_some]
  exact List.head_mem h

/-- In a timestamp-sorted typing history every sample is at most the last. -/
theorem sorted_le_getLastD {l : List TypingPattern}
    (hs : l.Pairwise (fun a b => a.timestamp ≤ b.timestamp)) (d : TypingPattern) :
    ∀ h ∈ l, h.timestamp ≤ (l.getLastD d).timestamp := by
  induction l generalizing d with
  | nil => simp
  | cons a t ih =>
    rw [List.getLastD_cons]
    intro h hm
    obtain ⟨hhead, htail⟩ := List.pairwise_cons.mp hs
    rcases List.mem_cons.mp hm with rfl | hm
    · cases t with
      | nil => simp [List.getLastD]
      | cons b t2 =>
        exact hhead _ (getLastD_mem h (by simp))
    · exact ih htail a h hm

/-- In a timestamp-sorted typing history every sample is at least the head. -/
theorem sorted_headD_le {l : List TypingPattern}
    (hs : l.Pairwise (fun a b => a.timestamp ≤ b.timestamp)) (d : TypingPattern) :
    ∀ h ∈ l, (l.headD d).timestamp ≤ h.timestamp := by
  cases l with
  | nil => simp
  | cons a t =>
    intro h hm
    rcases List.mem_cons.mp hm with rfl | hm
    · rw [List.headD_cons]
    · rw [List.headD_cons]
      exact (List.pairwise_cons.mp hs).1 h hm

/-- The `typing` tag test used by `_analyze_typing_patterns`. -/
def isTypingPat (p : ActivityPattern) : Bool := p.pattern_type == "typing"

/-- Invariant carried through the C4 induction: at most one `typing` pattern,
present exactly when the retained typing history is nonempty, its `end_time`
an attained upper bound of the retained timestamps, and the history sorted. -/
def C4Inv (s : RecognizerState) : Prop :=
  (s.activity_patterns.filter isTypingPat).length ≤ 1
  ∧ (s.typing_history = [] → s.activity_patterns.filter isTypingPat = [])
  ∧ (∀ q ∈ s.activity_patterns.filter isTypingPat,
      (∃ h ∈ s.typing_history, h.timestamp = q.end_time)
      ∧ ∀ h ∈ s.typing_history, h.timestamp ≤ q.end_time)
  ∧ (s.typing_history ≠ [] → (s.activity_patterns.filter isTypingPat).length = 1)
  ∧ s.typing_history.Pairwise (fun a b => a.timestamp ≤ b.timestamp)

/-- Window eviction preserves the C4 invariant. -/
theorem cleanup_old_data_C4Inv (now : ℚ) (s : RecognizerState)
    (h : C4Inv s) : C4Inv (cleanup_old_data now s) := by
  obtain ⟨ha, hb, hc, he, hsort⟩ := h
  have hfc : (cleanup_old_data now s).activity_patterns.filter isTypingPat =
      (s.activity_patterns.filter isTypingPat).filter
        (fun p => decide (now - s.window_size < p.end_time)) := by
    show (List.filter _ s.activity_patterns).filter isTypingPat = _
    rw [List.filter_comm]
  have hsub : ∀ q : ActivityPattern,
      q ∈ (cleanup_old_data now s).activity_patterns.filter isTypingPat →
      q ∈ s.activity_patterns.filter isTypingPat
        ∧ now - s.window_size < q.end_time := by
    intro q hq
    rw [hfc, List.mem_filter] at hq
    exact ⟨hq.1, by simpa using hq.2⟩
  have hlenle : ((cleanup_old_data now s).activity_patterns.filter
      isTypingPat).length ≤ (s.activity_patterns.filter isTypingPat).length := by
    rw [hfc]
    exact List.length_filter_le _ _
  refine ⟨le_trans hlenle ha, ?_, ?_, ?_, ?_⟩
  · intro hnil
    by_contra hne
    obtain ⟨q, hq⟩ := List.exists_mem_of_ne_nil _ hne
    obtain ⟨hqold, hqwin⟩ := hsub q hq
    obtain ⟨⟨h0, h0mem, h0ts⟩, _⟩ := hc q hqold
    have h0keep : h0 ∈ (cleanup_old_data now s).typing_history :=
      List.mem_filter.mpr ⟨h0mem, by
        simp only [decide_eq_true_eq]
        rw [h0ts]
        exact hqwin⟩
    rw [hnil] at h0keep
    simp at h0keep
  · intro q hq
    obtain ⟨hqold, hqwin⟩ := hsub q hq
    obtain ⟨⟨h0, h0mem, h0ts⟩, hbound⟩ := hc q hqold
    constructor
    · refine ⟨h0, List.mem_filter.mpr ⟨h0mem, ?_⟩, h0ts⟩
      simp only [decide_eq_true_eq]
      rw [h0ts]
      exact hqwin
    · intro h2 hmem
      exact hbound h2 (List.mem_of_mem_filter hmem)
  · intro hne
    obtain ⟨h0, h0mem⟩ := List.exists_mem_of_ne_nil _ hne
    have h0keep := List.mem_filter.mp h0mem
    have holdne : s.typing_history ≠ [] := by
      intro hnil
      rw [hnil] at h0keep
      simp at h0keep
    have hlen1 := he holdne
    obtain ⟨q, hq⟩ := List.exists_mem_of_ne_nil
      (s.activity_patterns.filter isTypingPat)
      (by
        intro hnil
        rw [hnil] at hlen1
        simp at hlen1)
    obtain ⟨_, hbound⟩ := hc q hq
    have hqkeep : q ∈ (cleanup_old_data now s).activity_patterns.filter
        isTypingPat := by
      rw [hfc, List.mem_filter]
      refine ⟨hq, ?_⟩
      simp only [decide_eq_true_eq]
      have hb0 := hbound h0 (List.mem_of_mem_filter h0mem)
      have h0win : now - s.window_size < h0.timestamp := by
        simpa using h0keep.2
      linarith
    have hge : 1 ≤ ((cleanup_old_data now s).activity_patterns.filter
        isTypingPat).length := List.length_pos.mpr (by
      intro hnil
      rw [hnil] at hqkeep
      simp at hqkeep)
    omega
  · exact List.Pairwise.sublist (List.filter_sublist _) hsort

/-- `_analyze_typing_patterns` never touches the typing history. -/
theorem analyze_typing_patterns_hist (s0 : RecognizerState) :
    (analyze_typing_patterns s0).typing_history = s0.typing_history := by
  unfold analyze_typing_patterns
  split_ifs <;> rfl

/-- `_analyze_activity_metrics` never touches the typing history. -/
theorem analyze_activity_metrics_hist (s0 : RecognizerState) :
    (analyze_activity_metrics s0).typing_history = s0.typing_history := by
  unfold analyze_activity_metrics
  split_ifs <;> rfl

/-- The `typing`-tagged patterns surviving cleanup are the surviving part of
the previous `typing`-tagged patterns. -/
theorem cleanup_filter_typing (now : ℚ) (s0 : RecognizerState) :
    (cleanup_old_data now s0).activity_patterns.filter isTypingPat =
      (s0.activity_patterns.filter isTypingPat).filter
        (fun q => decide (now - s0.window_size < q.end_time)) := by
  show (List.filter _ s0.activity_patterns).filter isTypingPat = _
  rw [List.filter_comm]

/-- Every pattern produced by the tool scan is tagged `tool`, not `typing`. -/
theorem qualifyingToolPatterns_not_typing {xs : List ActivityMetrics}
    {q : ActivityPattern} (h : q ∈ qualifyingToolPatterns xs) :
    isTypingPat q = false := by
  obtain ⟨pr, _, hd⟩ := List.mem_filterMap.mp h
  unfold detectToolPattern at hd
  split_ifs at hd
  have hq := Option.some.inj hd
  rw [← hq]
  rfl

/-- After `_analyze_typing_patterns` on a nonempty history, the summary is
the single `typing`-tagged pattern. -/
theorem analyze_filter_typing (s0 : RecognizerState) :
    (s0.activity_patterns.filter (fun q => !(q.pattern_type == "typing"))
      ++ [typingSummary s0]).filter isTypingPat = [typingSummary s0] := by
  rw [List.filter_append,
      List.filter_eq_nil_iff.mpr (fun a ha => by
        have := (List.mem_filter.mp ha).2
        simp only [isTypingPat]
        simp only [Bool.not_eq_true'] at this
        simp [this]),
      List.nil_append]
  show List.filter _ [_] = _
  simp [List.filter, isTypingPat, typingSummary]

/-- A typing ingestion whose sample is no older than every retained sample
preserves the C4 invariant. -/
theorem add_typing_pattern_C4Inv (now : ℚ) (p : TypingPattern)
    (s : RecognizerState) (h : C4Inv s)
    (hple : ∀ x ∈ s.typing_history, x.timestamp ≤ p.timestamp) :
    C4Inv (add_typing_pattern now p s) := by
  obtain ⟨ha, hb, hc, he, hsort⟩ := h
  have hsort1 : (s.typing_history ++ [p]).Pairwise
      (fun a b => a.timestamp ≤ b.timestamp) := by
    rw [List.pairwise_append]
    exact ⟨hsort, List.pairwise_singleton _ _, fun a hha b hhb => by
      rw [List.mem_singleton.mp hhb]
      exact hple a hha⟩
  unfold add_typing_pattern
  have ht2hist : (cleanup_old_data now
      { s with typing_history := s.typing_history ++ [p] }).typing_history =
      (s.typing_history ++ [p]).filter
        (fun x => decide (now - s.window_size < x.timestamp)) := rfl
  have hsort2 : (cleanup_old_data now
      { s with typing_history := s.typing_history ++ [p] }).typing_history.Pairwise
      (fun a b => a.timestamp ≤ b.timestamp) := by
    rw [ht2hist]
    exact List.Pairwise.sublist (List.filter_sublist _) hsort1
  have hfc : (cleanup_old_data now
      { s with typing_history := s.typing_history ++ [p] }).activity_patterns.filter
        isTypingPat =
      (s.activity_patterns.filter isTypingPat).filter
        (fun q => decide (now - s.window_size < q.end_time)) := by
    show (List.filter _ s.activity_patterns).filter isTypingPat = _
    rw [List.filter_comm]
  by_cases hemp : (cleanup_old_data now
      { s with typing_history := s.typing_history ++ [p] }).typing_history = []
  · have hbclean : (cleanup_old_data now
        { s with typing_history := s.typing_history ++ [p] }).activity_patterns.filter
          isTypingPat = [] := by
      by_contra hne
      obtain ⟨q, hq⟩ := List.exists_mem_of_ne_nil _ hne
      rw [hfc, List.mem_filter] at hq
      obtain ⟨hqold, hqwin⟩ := hq
      obtain ⟨⟨h0, h0mem, h0ts⟩, _⟩ := hc q hqold
      have h0in : h0 ∈ (cleanup_old_data now
          { s with typing_history := s.typing_history ++ [p] }).typing_history := by
        rw [ht2hist]
        refine List.mem_filter.mpr ⟨List.mem_append_left _ h0mem, ?_⟩
        rw [h0ts]
        exact hqwin
      rw [hemp] at h0in
      simp at h0in
    unfold analyze_typing_patterns
    rw [if_pos (by simpa [List.isEmpty_iff] using hemp)]
    refine ⟨?_, fun _ => hbclean, ?_, ?_, hsort2⟩
    · rw [hbclean]
      simp
    · intro q hq
      rw [hbclean] at hq
      simp at hq
    · intro hne
      exact absurd hemp hne
  · unfold analyze_typing_patterns
    rw [if_neg (by simpa [List.isEmpty_iff] using hemp)]
    have hfin : ({ cleanup_old_data now
          { s with typing_history := s.typing_history ++ [p] } with
        activity_patterns := (cleanup_old_data now
          { s with typing_history := s.typing_history ++ [p] }).activity_patterns.filter
            (fun q => !(q.pattern_type == "typing"))
          ++ [typingSummary (cleanup_old_data now
            { s with typing_history := s.typing_history ++ [p] })] } :
        RecognizerState).activity_patterns.filter isTypingPat =
      [typingSummary (cleanup_old_data now
        { s with typing_history := s.typing_history ++ [p] })] :=
      analyze_filter_typing _
  -- conclude C4Inv of the rebuilt state
    refine ⟨?_, ?_, ?_, ?_, hsort2⟩
    · rw [hfin]
      simp
    · intro hnil
      exact absurd hnil hemp
    · intro q hq
      rw [hfin, List.mem_singleton] at hq
      subst hq
      constructor
      · exact ⟨_, getLastD_mem default hemp, rfl⟩
      · exact sorted_le_getLastD hsort2 default
    · intro _
      rw [hfin]
      rfl

/-- The tool scan contributes no `typing`-tagged pattern. -/
theorem filter_typing_toolPatterns (xs : List ActivityMetrics) :
    (qualifyingToolPatterns xs).filter isTypingPat = [] :=
  List.filter_eq_nil_iff.mpr (fun a ha => by
    rw [qualifyingToolPatterns_not_typing ha]
    simp)

/-- An activity ingestion preserves the C4 invariant. -/
theorem add_activity_metrics_C4Inv2 (now : ℚ) (m : ActivityMetrics)
    (s : RecognizerState) (h : C4Inv s) :
    C4Inv (add_activity_metrics now m s) := by
  have h1 : C4Inv { s with activity_history := s.activity_history ++ [m] } := h
  have h2 := cleanup_old_data_C4Inv now _ h1
  obtain ⟨ha, hb, hc, he, hsort⟩ := h2
  unfold add_activity_metrics analyze_activity_metrics
  split_ifs with hg
  · exact ⟨ha, hb, hc, he, hsort⟩
  · have hfe : ((cleanup_old_data now
        { s with activity_history := s.activity_history ++ [m] }).activity_patterns
        ++ qualifyingToolPatterns (cleanup_old_data now
          { s with activity_history := s.activity_history ++ [m] }).activity_history).filter
          isTypingPat =
        (cleanup_old_data now
          { s with activity_history := s.activity_history ++ [m] }).activity_patterns.filter
            isTypingPat := by
      rw [List.filter_append, filter_typing_toolPatterns, List.append_nil]
    exact ⟨by rw [hfe]; exact ha, fun hnil => by rw [hfe]; exact hb hnil,
      fun q hq => hc q (by rw [hfe] at hq; exact hq),
      fun hne => by rw [hfe]; exact he hne, hsort⟩

/-- The timestamps of the typing samples of an event sequence, in order. -/
def typingTimes (es : List RecEvent) : List ℚ :=
  es.filterMap (fun e => match e with
    | RecEvent.typing _ p => some p.timestamp
    | RecEvent.activity _ _ => none)

/-- The typing history after a typing ingestion is the pruned appended
history. -/
theorem add_typing_pattern_hist (now : ℚ) (p : TypingPattern)
    (s2 : RecognizerState) :
    (add_typing_pattern now p s2).typing_history =
      (cleanup_old_data now
        { s2 with typing_history := s2.typing_history ++ [p] }).typing_history := by
  unfold add_typing_pattern
  rw [analyze_typing_patterns_hist]

/-- The typing history after an activity ingestion is the pruned history. -/
theorem add_activity_metrics_hist (now : ℚ) (m : ActivityMetrics)
    (s2 : RecognizerState) :
    (add_activity_metrics now m s2).typing_history =
      (cleanup_old_data now
        { s2 with activity_history := s2.activity_history ++ [m] }).typing_history := by
  unfold add_activity_metrics
  rw [analyze_activity_metrics_hist]

/-- When the pruned appended history is nonempty, the typing ingestion leaves
exactly one `typing`-tagged pattern: the summary over that history. -/
theorem add_typing_filter_nonempty (now : ℚ) (p : TypingPattern)
    (s2 : RecognizerState)
    (hemp : (cleanup_old_data now
      { s2 with typing_history := s2.typing_history ++ [p] }).typing_history ≠ []) :
    (add_typing_pattern now p s2).activity_patterns.filter isTypingPat =
      [typingSummary (cleanup_old_data now
        { s2 with typing_history := s2.typing_history ++ [p] })] := by
  unfold add_typing_pattern analyze_typing_patterns
  rw [if_neg (by simpa [List.isEmpty_iff] using hemp)]
  exact analyze_filter_typing _

/-- The C4 invariant holds after any sorted-typing ingestion sequence. -/
theorem runEvents_C4Inv (es : List RecEvent) (s : RecognizerState)
    (h : C4Inv s) (hord : (typingTimes es).Pairwise (· ≤ ·))
    (hinit : ∀ x ∈ s.typing_history, ∀ t ∈ typingTimes es, x.timestamp ≤ t) :
    C4Inv (runEvents s es) := by
  induction es generalizing s with
  | nil => exact h
  | cons e rest ih =>
    show C4Inv (runEvents (applyEvent s e) rest)
    cases e with
    | typing now p =>
      have htt : typingTimes (RecEvent.typing now p :: rest)
          = p.timestamp :: typingTimes rest := rfl
      rw [htt] at hord hinit
      obtain ⟨hhead, htail⟩ := List.pairwise_cons.mp hord
      apply ih
      · exact add_typing_pattern_C4Inv now p s h
          (fun x hx => hinit x hx p.timestamp (List.mem_cons_self _ _))
      · exact htail
      · intro x hx t ht
        rw [show applyEvent s (RecEvent.typing now p)
            = add_typing_pattern now p s from rfl,
          add_typing_pattern_hist] at hx
        rcases List.mem_append.mp (List.mem_of_mem_filter hx) with hx3 | hx3
        · exact hinit x hx3 t (List.mem_cons_of_mem _ ht)
        · rw [List.mem_singleton.mp hx3]
          exact hhead t ht
    | activity now m =>
      have htt : typingTimes (RecEvent.activity now m :: rest)
          = typingTimes rest := rfl
      rw [htt] at hord hinit
      apply ih
      · exact add_activity_metrics_C4Inv2 now m s h
      · exact hord
      · intro x hx t ht
        rw [show applyEvent s (RecEvent.activity now m)
            = add_activity_metrics now m s from rfl,
          add_activity_metrics_hist] at hx
        exact hinit x (List.mem_of_mem_filter hx) t ht

/-- C4 (amended): for every ingestion sequence whose typing samples arrive in
nondecreasing timestamp order, the recognizer always holds at most one
`typing`-type pattern, exactly one precisely when the retained typing history
is nonempty; and immediately after a typing ingestion the unique `typing`
pattern spans exactly the retained history — `start_time` and `end_time` are
the first (earliest) and last (latest) retained timestamps and the
`burst_count` metric is the retained sample count.  (After an activity
ingestion the surviving pattern may lag the pruned history — see the
counterexample.) -/
theorem C4_single_typing_summary (w : ℚ) (es : List RecEvent)
    (hsort : (typingTimes es).Pairwise (· ≤ ·)) :
    ((runEvents (freshRecognizer w) es).activity_patterns.filter
      isTypingPat).length ≤ 1
    ∧ ((runEvents (freshRecognizer w) es).typing_history ≠ [] ↔
        ((runEvents (freshRecognizer w) es).activity_patterns.filter
          isTypingPat).length = 1)
    ∧ (∀ es2 now p, es = es2 ++ [RecEvent.typing now p] →
        ∀ q ∈ (runEvents (freshRecognizer w) es).activity_patterns.filter
          isTypingPat,
          q.start_time = ((runEvents (freshRecognizer w)
            es).typing_history.headD default).timestamp
          ∧ q.end_time = ((runEvents (freshRecognizer w)
            es).typing_history.getLastD default).timestamp
          ∧ q.metrics.lookup "burst_count" =
              some (((runEvents (freshRecognizer w)
                es).typing_history.length : ℚ))
          ∧ ∀ x ∈ (runEvents (freshRecognizer w) es).typing_history,
              q.start_time ≤ x.timestamp ∧ x.timestamp ≤ q.end_time) := by
  have hfresh : C4Inv (freshRecognizer w) := by
    refine ⟨by simp [freshRecognizer], fun _ => rfl, ?_, ?_, ?_⟩
    · intro q hq
      simp [freshRecognizer] at hq
    · intro hne
      exact absurd rfl hne
    · simp [freshRecognizer]
  have hinv := runEvents_C4Inv es (freshRecognizer w) hfresh hsort
    (by intro x hx; simp [freshRecognizer] at hx)
  obtain ⟨ha, hb, hc, he, hsortinv⟩ := hinv
  refine ⟨ha, ⟨he, ?_⟩, ?_⟩
  · intro hlen hnil
    rw [hb hnil] at hlen
    simp at hlen
  · rintro es2 now p rfl
    have hfold : runEvents (freshRecognizer w)
        (es2 ++ [RecEvent.typing now p]) =
        add_typing_pattern now p (runEvents (freshRecognizer w) es2) := by
      unfold runEvents
      rw [List.foldl_append]
      rfl
    intro q hq
    by_cases hemp : (cleanup_old_data now
        { runEvents (freshRecognizer w) es2 with
          typing_history := (runEvents (freshRecognizer w)
            es2).typing_history ++ [p] }).typing_history = []
    · have hnil : (runEvents (freshRecognizer w)
          (es2 ++ [RecEvent.typing now p])).typing_history = [] := by
        rw [hfold, add_typing_pattern_hist]
        exact hemp
      rw [hb hnil] at hq
      simp at hq
    · have hpats : (runEvents (freshRecognizer w)
          (es2 ++ [RecEvent.typing now p])).activity_patterns.filter
            isTypingPat =
          [typingSummary (cleanup_old_data now
            { runEvents (freshRecognizer w) es2 with
              typing_history := (runEvents (freshRecognizer w)
                es2).typing_history ++ [p] })] := by
        rw [hfold]
        exact add_typing_filter_nonempty now p _ hemp
      have hhist : (runEvents (freshRecognizer w)
          (es2 ++ [RecEvent.typing now p])).typing_history =
          (cleanup_old_data now
            { runEvents (freshRecognizer w) es2 with
              typing_history := (runEvents (freshRecognizer w)
                es2).typing_history ++ [p] }).typing_history := by
        rw [hfold, add_typing_pattern_hist]
      have hsort2 : (cleanup_old_data now
          { runEvents (freshRecognizer w) es2 with
            typing_history := (runEvents (freshRecognizer w)
              es2).typing_history ++ [p] }).typing_history.Pairwise
          (fun a b => a.timestamp ≤ b.timestamp) := by
        rw [← hhist]
        exact hsortinv
      rw [hpats, List.mem_singleton] at hq
      subst hq
      refine ⟨?_, ?_, ?_, ?_⟩
      · rw [hhist]
        rfl
      · rw [hhist]
        rfl
      · rw [hhist]
        rfl
      · intro x hx
        rw [hhist] at hx
        exact ⟨sorted_headD_le hsort2 default x hx,
          sorted_le_getLastD hsort2 default x hx⟩

/-- C4 counterexample: two typing samples at clocks 0 and 100 followed by an
activity sample at clock 301 (window 300).  The activity ingestion evicts the
first typing sample without re-running the typing analysis, so the retained
typing history is the single sample at 100 while the surviving unique
`typing` pattern still spans `[0, 100]` with `burst_count` 2 — its
`start_time` is not the earliest retained timestamp and its `burst_count` is
not the retained count, refuting the claim for calls to
`add_activity_metrics`. -/
theorem C4_counterexample :
    (add_activity_metrics 301
        { typing_speed := 0, focus_duration := 0, tool_switches := 0,
          timestamp := 301 }
        (add_typing_pattern 100
          { avg_speed := 60, burst_duration := 0, pause_duration := 0,
            timestamp := 100 }
          (add_typing_pattern 0
            { avg_speed := 60, burst_duration := 0, pause_duration := 0,
              timestamp := 0 }
            (freshRecognizer 300)))).typing_history =
      [{ avg_speed := 60, burst_duration := 0, pause_duration := 0,
         timestamp := 100 }]
    ∧ (add_activity_metrics 301
        { typing_speed := 0, focus_duration := 0, tool_switches := 0,
          timestamp := 301 }
        (add_typing_pattern 100
          { avg_speed := 60, burst_duration := 0, pause_duration := 0,
            timestamp := 100 }
          (add_typing_pattern 0
            { avg_speed := 60, burst_duration := 0, pause_duration := 0,
              timestamp := 0 }
            (freshRecognizer 300)))).activity_patterns =
      [{ pattern_type := "typing", start_time := 0, end_time := 100,
         intensity := 1, confidence := 1,
         metrics := [("avg_speed", 60), ("consistency", 1),
                     ("burst_count", 2)] }]
    ∧ (0 : ℚ) ≠ 100 ∧ (2 : ℚ) ≠ 1 := by
  refine ⟨?_, ?_, by norm_num, by norm_num⟩ <;>
    norm_num [add_activity_metrics, add_typing_pattern, cleanup_old_data,
      analyze_typing_patterns, analyze_activity_metrics, typingSummary,
      typingIntensity, typingConsistency, typingSpeeds, freshRecognizer,
      mean, svariance, pyMax, qualifyingChanges, qualifyingToolPatterns,
      consecPairs, detectContextChange, detectToolPattern,
      List.filterMap_cons, List.filter_cons, List.filter_nil]

/-- Witness for C4 (amended): two ordered typing samples at clocks 0 and 10. -/
theorem C4_single_typing_summary_witness :
    ((runEvents (freshRecognizer 300)
      [RecEvent.typing 0
        { avg_speed := 60, burst_duration := 0, pause_duration := 0,
          timestamp := 0 },
       RecEvent.typing 10
        { avg_speed := 66, burst_duration := 0, pause_duration := 0,
          timestamp := 10 }]).activity_patterns.filter isTypingPat).length ≤ 1
    ∧ ((runEvents (freshRecognizer 300)
      [RecEvent.typing 0
        { avg_speed := 60, burst_duration := 0, pause_duration := 0,
          timestamp := 0 },
       RecEvent.typing 10
        { avg_speed := 66, burst_duration := 0, pause_duration := 0,
          timestamp := 10 }]).typing_history ≠ [] ↔
        ((runEvents (freshRecognizer 300)
          [RecEvent.typing 0
            { avg_speed := 60, burst_duration := 0, pause_duration := 0,
              timestamp := 0 },
           RecEvent.typing 10
            { avg_speed := 66, burst_duration := 0, pause_duration := 0,
              timestamp := 10 }]).activity_patterns.filter
              isTypingPat).length = 1)
    ∧ (∀ es2 now p,
        [RecEvent.typing 0
          { avg_speed := 60, burst_duration := 0, pause_duration := 0,
            timestamp := 0 },
         RecEvent.typing 10
          { avg_speed := 66, burst_duration := 0, pause_duration := 0,
            timestamp := 10 }] = es2 ++ [RecEvent.typing now p] →
        ∀ q ∈ (runEvents (freshRecognizer 300)
          [RecEvent.typing 0
            { avg_speed := 60, burst_duration := 0, pause_duration := 0,
              timestamp := 0 },
           RecEvent.typing 10
            { avg_speed := 66, burst_duration := 0, pause_duration := 0,
              timestamp := 10 }]).activity_patterns.filter isTypingPat,
          q.start_time = ((runEvents (freshRecognizer 300)
            [RecEvent.typing 0
              { avg_speed := 60, burst_duration := 0, pause_duration := 0,
                timestamp := 0 },
             RecEvent.typing 10
              { avg_speed := 66, burst_duration := 0, pause_duration := 0,
                timestamp := 10 }]).typing_history.headD default).timestamp
          ∧ q.end_time = ((runEvents (freshRecognizer 300)
            [RecEvent.typing 0
              { avg_speed := 60, burst_duration := 0, pause_duration := 0,
                timestamp := 0 },
             RecEvent.typing 10
              { avg_speed := 66, burst_duration := 0, pause_duration := 0,
                timestamp := 10 }]).typing_history.getLastD default).timestamp
          ∧ q.metrics.lookup "burst_count" =
              some (((runEvents (freshRecognizer 300)
                [RecEvent.typing 0
                  { avg_speed := 60, burst_duration := 0, pause_duration := 0,
                    timestamp := 0 },
                 RecEvent.typing 10
                  { avg_speed := 66, burst_duration := 0, pause_duration := 0,
                    timestamp := 10 }]).typing_history.length : ℚ))
          ∧ ∀ x ∈ (runEvents (freshRecognizer 300)
              [RecEvent.typing 0
                { avg_speed := 60, burst_duration := 0, pause_duration := 0,
                  timestamp := 0 },
               RecEvent.typing 10
                { avg_speed := 66, burst_duration := 0, pause_duration := 0,
                  timestamp := 10 }]).typing_history,
              q.start_time ≤ x.timestamp ∧ x.timestamp ≤ q.end_time) := by
  apply C4_single_typing_summary
  show ([(0 : ℚ), 10]).Pairwise (· ≤ ·)
  norm_num
